import Mathlib

/-!
# EduSynth demo page (`js/main.js`): the generation request pipeline

A shallow embedding of the pipeline of `js/main.js`
(`safeTrim`, `extractJsonObject`, `buildOfflineDemo`, `generateWithGemini`
and the submit / clear-key handlers of `initDemo`), followed by the
theorems that settle the claims made about it.

Strings are sequences of UTF-16 code units, as in ECMAScript; a code unit
is a natural number.  Every string literal of the source is ASCII, so its
code units are the code points of its characters.
-/

namespace EduSynth

/-! ## Strings -/

/-- An ECMAScript string: its sequence of UTF-16 code units. -/
abbrev JsString := List Nat

/-- The code units of an ASCII string literal of the source. -/
def lit (s : String) : JsString := s.toList.map Char.toNat

/-- ECMAScript `WhiteSpace` and `LineTerminator` code points, the ones
`String.prototype.trim` strips. -/
def isWhiteSpace (c : Nat) : Bool :=
  c == 0x09 || c == 0x0A || c == 0x0B || c == 0x0C || c == 0x0D || c == 0x20 ||
  c == 0xA0 || c == 0x1680 || (0x2000 ≤ c && c ≤ 0x200A) ||
  c == 0x2028 || c == 0x2029 || c == 0x202F || c == 0x205F || c == 0x3000 || c == 0xFEFF

/-- `String.prototype.trim`: strips white space from both ends. -/
def trim (s : JsString) : JsString :=
  (s.dropWhile isWhiteSpace).rdropWhile isWhiteSpace

/-- `String.prototype.indexOf` for a one-unit search string: the first
index holding `c`, or `-1`. -/
def indexOf (t : JsString) (c : Nat) : Int :=
  if c ∈ t then (List.indexOf c t : Nat) else -1

/-- `String.prototype.lastIndexOf` for a one-unit search string: the last
index holding `c`, or `-1`. -/
def lastIndexOf (t : JsString) (c : Nat) : Int :=
  if c ∈ t then (t.length - 1 - List.indexOf c t.reverse : Nat) else -1

/-- `String.prototype.slice(s, e)`: negative arguments count from the end,
both are clamped to the length. -/
def slice (t : JsString) (s e : Int) : JsString :=
  let len : Int := t.length
  let a : Int := if s < 0 then max (len + s) 0 else min s len
  let b : Int := if e < 0 then max (len + e) 0 else min e len
  (t.drop a.toNat).take (b - a).toNat

/-- Code unit of `{`. -/
def lbrace : Nat := 123

/-- Code unit of `}`. -/
def rbrace : Nat := 125

/-- The source's `safeTrim` at an argument that is a string or `undefined`
(here `none`), as `el?.value` is: `String(s || '').trim()`, where `s || ''`
is `s` itself for a string and `''` for `undefined`. -/
def safeTrim (s : Option JsString) : JsString := trim (s.getD [])

/-- The source's `extractJsonObject`: the text from the first `{` to the
last `}`, or `null` (here `none`). -/
def extractJsonObject (text : JsString) : Option JsString :=
  let t := text
  let start := indexOf t lbrace
  let end_ := lastIndexOf t rbrace
  if start = -1 ∨ end_ = -1 ∨ end_ ≤ start then none
  else some (slice t start (end_ + 1))

/-! ## The study note and the offline template -/

/-- The object built by `buildOfflineDemo` and by `generateWithGemini`. -/
structure Note where
  summary : JsString
  explanation : JsString
  keyPoints : List JsString
  conclusion : JsString
  deriving DecidableEq, Repr

/-- The tone sentence `buildOfflineDemo` selects from `level`. -/
def toneOf (level : JsString) : JsString :=
  if level = lit "school" then lit "Use simple words and a familiar analogy."
  else if level = lit "exam" then lit "Keep it tight and revision-friendly."
  else lit "Be clear and academic, but not too technical."

/-- The source's `buildOfflineDemo`. -/
def buildOfflineDemo (topic level : JsString) : Note :=
  let t := if safeTrim (some topic) = [] then lit "the topic" else safeTrim (some topic)
  let tone := toneOf level
  { summary := t ++ lit " is explained here in a short, structured format to help you revise quickly."
    explanation :=
      (lit "This is an offline sample (no API key used). " ++ tone ++ lit "\n\n") ++
      (lit "In practice, EduSynth AI would research " ++ t ++
        lit ", then rewrite it as easy notes: what it is, why it matters, and how it works, with key terms defined.")
    keyPoints := [
      lit "Definition: what \"" ++ t ++ lit "\" refers to in a syllabus context",
      lit "Core idea: the main mechanism or principle",
      lit "Why it matters: common applications or exam relevance",
      lit "Common mistakes: typical misconceptions students have",
      lit "Quick revision: 2-3 lines you can memorize" ]
    conclusion :=
      lit "Use the key points as a checklist. If you add a Gemini API key, you can generate real notes for \"" ++
        t ++ lit "\" instantly." }

/-! ## ECMAScript values read from JSON -/

/-- A value `JSON.parse` can return.  A number is kept as its lexeme: what
the program observes of it (truthiness, `Number::toString`) comes from
the `Engine`. -/
inductive JsVal where
  | null
  | bool (b : Bool)
  | num (lexeme : JsString)
  | str (s : JsString)
  | arr (items : List JsVal)
  | obj (members : List (JsString × JsVal))

/-- A thrown value, as the submit handler reads it: its `message`
(`[]` when the value has none). -/
structure JsError where
  message : JsString
  deriving DecidableEq, Repr

deriving instance DecidableEq for Except

/-- What the host engine decides: the double a number lexeme denotes
(whether it is non-zero, and its `Number::toString`), and the messages of
the errors it throws itself. -/
structure Engine where
  /-- Whether the number is neither `+0` nor `-0`. -/
  numTruthy : JsString → Bool
  /-- The result of `Number::toString`. -/
  numText : JsString → JsString
  /-- Message of the `SyntaxError` of `JSON.parse` on a text. -/
  parseErrorMessage : JsString → JsString
  /-- Message of the `TypeError` of calling a value that is no function. -/
  notCallable : JsString
  /-- Message of the `TypeError` of `OrdinaryToPrimitive` finding no primitive. -/
  notPrimitive : JsString
  /-- Message of the `URIError` of `encodeURIComponent` on a lone surrogate. -/
  malformedURI : JsString

/-- A sample engine for the closed examples, with the wording V8 gives its
`TypeError`s (the message of a `SyntaxError` is abridged).  Numbers are left
as their lexeme, and one counts as non-zero when its mantissa has a non-zero
digit. -/
def v8 : Engine where
  numTruthy := fun l =>
    (l.takeWhile fun c => decide (c ≠ 0x65 ∧ c ≠ 0x45)).any fun c => decide (0x31 ≤ c ∧ c ≤ 0x39)
  numText := fun l => l
  parseErrorMessage := fun _ => lit "Unexpected token in JSON"
  notCallable := lit "payload?.candidates?.[0]?.content?.parts?.map is not a function"
  notPrimitive := lit "Cannot convert object to primitive value"
  malformedURI := lit "URI malformed"

/-- `ToBoolean`; `none` is `undefined`. -/
def truthy (E : Engine) : Option JsVal → Bool
  | none => false
  | some .null => false
  | some (.bool b) => b
  | some (.num l) => E.numTruthy l
  | some (.str s) => decide (s ≠ [])
  | some (.arr _) => true
  | some (.obj _) => true

/-- The value of own property `key` of an object `JSON.parse` built: of
duplicate names the last one wins. -/
def lookupLast (ms : List (JsString × JsVal)) (key : JsString) : Option JsVal :=
  match ms with
  | [] => none
  | m :: rest =>
    match lookupLast rest key with
    | some w => some w
    | none => if m.1 = key then some m.2 else none

/-- Whether an object `JSON.parse` built has own property `key`. -/
def hasOwn (ms : List (JsString × JsVal)) (key : JsString) : Bool :=
  ms.any fun m => decide (m.1 = key)

/-- The expression `v?.key` for the names the source reads (`candidates`, `content`,
`parts`, `text`, `summary`, `explanation`, `keyPoints`, `conclusion`), none of
which a prototype defines: `undefined` unless `v` is an object with that
own property. -/
def getMember (v : Option JsVal) (key : JsString) : Option JsVal :=
  match v with
  | some (.obj ms) => lookupLast ms key
  | _ => none

/-- The expression `v?.[0]`: the first element of an array, the first code
unit of a string, own property `"0"` of an object, else `undefined`. -/
def getIndex0 (v : Option JsVal) : Option JsVal :=
  match v with
  | some (.arr items) => items.head?
  | some (.str s) => s.head?.map fun c => .str [c]
  | some (.obj ms) => lookupLast ms (lit "0")
  | _ => none

mutual
/-- `ToString` (what `String(v)` returns).  An array is joined with `,`;
an object is `[object Object]` unless it has an own `toString` property:
that one is no function, `Object.prototype.valueOf` returns the object, and
`OrdinaryToPrimitive` throws a `TypeError`. -/
def jsToString (E : Engine) : JsVal → Except JsError JsString
  | .null => .ok (lit "null")
  | .bool true => .ok (lit "true")
  | .bool false => .ok (lit "false")
  | .num l => .ok (E.numText l)
  | .str s => .ok s
  | .arr items => joinItems E (lit ",") items
  | .obj ms =>
    if hasOwn ms (lit "toString") then .error ⟨E.notPrimitive⟩
    else .ok (lit "[object Object]")
/-- `Array.prototype.join(sep)`: `null` counts as the empty string, every
other element is converted with `ToString`, left to right. -/
def joinItems (E : Engine) (sep : JsString) : List JsVal → Except JsError JsString
  | [] => .ok []
  | x :: rest =>
    let first : Except JsError JsString :=
      match x with
      | .null => .ok []
      | _ => jsToString E x
    match first with
    | .error e => .error e
    | .ok s =>
      match rest with
      | [] => .ok s
      | _ :: _ =>
        match joinItems E sep rest with
        | .error e => .error e
        | .ok t => .ok (s ++ sep ++ t)
end

/-- The expression `v || ''`. -/
def orEmpty (E : Engine) (v : Option JsVal) : JsVal :=
  match v with
  | some x => if truthy E (some x) then x else .str []
  | none => .str []

/-- The source's `safeTrim` at any value: `String(s || '').trim()`. -/
def safeTrimVal (E : Engine) (v : Option JsVal) : Except JsError JsString :=
  match jsToString E (orEmpty E v) with
  | .error e => .error e
  | .ok s => .ok (trim s)

/-! ## `JSON.parse` -/

/-- JSON white space: space, tab, line feed, carriage return. -/
def isJsonWs (c : Nat) : Bool := c == 0x20 || c == 0x09 || c == 0x0A || c == 0x0D

/-- Skips leading JSON white space. -/
def skipWs (s : JsString) : JsString := s.dropWhile isJsonWs

/-- Value of a hexadecimal digit, either case. -/
def hexVal (c : Nat) : Option Nat :=
  if 0x30 ≤ c ∧ c ≤ 0x39 then some (c - 0x30)
  else if 0x41 ≤ c ∧ c ≤ 0x46 then some (c - 0x41 + 10)
  else if 0x61 ≤ c ∧ c ≤ 0x66 then some (c - 0x61 + 10)
  else none

/-- The code unit a four-digit `\u` escape denotes. -/
def hex4 (a b c d : Nat) : Option Nat :=
  match hexVal a, hexVal b, hexVal c, hexVal d with
  | some x, some y, some z, some w => some (((x * 16 + y) * 16 + z) * 16 + w)
  | _, _, _, _ => none

/-- The code unit a one-letter escape denotes: `\" \\ \/ \b \f \n \r \t`. -/
def unescape (e : Nat) : Option Nat :=
  if e = 0x22 then some 0x22
  else if e = 0x5C then some 0x5C
  else if e = 0x2F then some 0x2F
  else if e = 0x62 then some 0x08
  else if e = 0x66 then some 0x0C
  else if e = 0x6E then some 0x0A
  else if e = 0x72 then some 0x0D
  else if e = 0x74 then some 0x09
  else none

/-- The rest of a JSON string after its opening quote: the string it
denotes and what follows the closing quote. -/
def parseChars : JsString → Option (JsString × JsString)
  | [] => none
  | c :: rest =>
    if c = 0x22 then some ([], rest)
    else if c = 0x5C then
      match rest with
      | [] => none
      | e :: rest2 =>
        if e = 0x75 then
          match rest2 with
          | h1 :: h2 :: h3 :: h4 :: rest3 =>
            match hex4 h1 h2 h3 h4, parseChars rest3 with
            | some u, some (s, r) => some (u :: s, r)
            | _, _ => none
          | _ => none
        else
          match unescape e, parseChars rest2 with
          | some u, some (s, r) => some (u :: s, r)
          | _, _ => none
    else if c < 0x20 then none
    else
      match parseChars rest with
      | some (s, r) => some (c :: s, r)
      | none => none

/-- A decimal digit. -/
def isDigit (c : Nat) : Bool := 0x30 ≤ c && c ≤ 0x39

/-- Drops the literal `p` from the front of `s`, when `s` starts with it. -/
def dropLiteral (p s : JsString) : Option JsString :=
  if p <+: s then some (s.drop p.length) else none

/-- One or more digits. -/
def scanDigits (s : JsString) : Option (JsString × JsString) :=
  let ds := s.takeWhile isDigit
  if ds = [] then none else some (ds, s.dropWhile isDigit)

/-- The integer part of a JSON number: `0`, or a non-zero digit and digits. -/
def scanInt (s : JsString) : Option (JsString × JsString) :=
  match s with
  | [] => none
  | c :: rest =>
    if c = 0x30 then some ([c], rest)
    else if isDigit c then some (c :: rest.takeWhile isDigit, rest.dropWhile isDigit)
    else none

/-- The optional fraction of a JSON number: `.` and one or more digits. -/
def scanFrac (s : JsString) : Option (JsString × JsString) :=
  match s with
  | c :: rest =>
    if c = 0x2E then
      match scanDigits rest with
      | some (ds, r) => some (c :: ds, r)
      | none => none
    else some ([], s)
  | [] => some ([], s)

/-- The optional exponent of a JSON number: `e` or `E`, a sign, digits. -/
def scanExp (s : JsString) : Option (JsString × JsString) :=
  match s with
  | c :: rest =>
    if c = 0x65 ∨ c = 0x45 then
      match rest with
      | g :: rest2 =>
        if g = 0x2B ∨ g = 0x2D then
          match scanDigits rest2 with
          | some (ds, r) => some (c :: g :: ds, r)
          | none => none
        else
          match scanDigits rest with
          | some (ds, r) => some (c :: ds, r)
          | none => none
      | [] => none
    else some ([], s)
  | [] => some ([], s)

/-- The lexeme of a JSON number at the front of `s`, and the rest. -/
def scanNumber (s : JsString) : Option (JsString × JsString) :=
  let signed : JsString × JsString :=
    match s with
    | c :: rest => if c = 0x2D then ([c], rest) else ([], s)
    | [] => ([], s)
  match scanInt signed.2 with
  | none => none
  | some (i, s2) =>
    match scanFrac s2 with
    | none => none
    | some (f, s3) =>
      match scanExp s3 with
      | none => none
      | some (e, s4) => some (signed.1 ++ i ++ f ++ e, s4)

mutual
/-- A JSON value at the front of `s` (no leading white space), and the rest.
The first argument bounds the nesting and the number of elements; the
length of the text is always enough. -/
def parseValue : Nat → JsString → Option (JsVal × JsString)
  | 0, _ => none
  | fuel + 1, s =>
    match s with
    | [] => none
    | c :: rest =>
      if c = 0x22 then
        match parseChars rest with
        | some (x, r) => some (JsVal.str x, r)
        | none => none
      else if c = 0x5B then
        match skipWs rest with
        | d :: r =>
          if d = 0x5D then some (JsVal.arr [], r)
          else
            match parseElements fuel rest with
            | some (xs, r2) => some (JsVal.arr xs, r2)
            | none => none
        | [] => none
      else if c = 0x7B then
        match skipWs rest with
        | d :: r =>
          if d = 0x7D then some (JsVal.obj [], r)
          else
            match parseMembers fuel rest with
            | some (ms, r2) => some (JsVal.obj ms, r2)
            | none => none
        | [] => none
      else if c = 0x74 then (dropLiteral (lit "true") s).map fun r => (JsVal.bool true, r)
      else if c = 0x66 then (dropLiteral (lit "false") s).map fun r => (JsVal.bool false, r)
      else if c = 0x6E then (dropLiteral (lit "null") s).map fun r => (JsVal.null, r)
      else
        match scanNumber s with
        | some (l, r) => some (JsVal.num l, r)
        | none => none
/-- The elements of an array after `[`, up to and including `]`. -/
def parseElements : Nat → JsString → Option (List JsVal × JsString)
  | 0, _ => none
  | fuel + 1, s =>
    match parseValue fuel (skipWs s) with
    | none => none
    | some (v, r) =>
      match skipWs r with
      | d :: r2 =>
        if d = 0x2C then
          match parseElements fuel r2 with
          | some (vs, r3) => some (v :: vs, r3)
          | none => none
        else if d = 0x5D then some ([v], r2)
        else none
      | [] => none
/-- The members of an object after `{`, up to and including `}`. -/
def parseMembers : Nat → JsString → Option (List (JsString × JsVal) × JsString)
  | 0, _ => none
  | fuel + 1, s =>
    match skipWs s with
    | q :: s1 =>
      if q = 0x22 then
        match parseChars s1 with
        | none => none
        | some (k, s2) =>
          match skipWs s2 with
          | col :: s3 =>
            if col = 0x3A then
              match parseValue fuel (skipWs s3) with
              | none => none
              | some (v, r) =>
                match skipWs r with
                | d :: r2 =>
                  if d = 0x2C then
                    match parseMembers fuel r2 with
                    | some (ms, r3) => some ((k, v) :: ms, r3)
                    | none => none
                  else if d = 0x7D then some ([(k, v)], r2)
                  else none
                | [] => none
            else none
          | [] => none
      else none
    | [] => none
end

/-- `JSON.parse(text)`: the value the whole text denotes, `none` where
`JSON.parse` throws a `SyntaxError`. -/
def JSON_parse (text : JsString) : Option JsVal :=
  match parseValue (text.length + 1) (skipWs text) with
  | some (v, r) => if skipWs r = [] then some v else none
  | none => none

/-! ## `JSON.stringify` of a note -/

/-- Lower-case hexadecimal digit of a value below 16. -/
def hexDigit (n : Nat) : Nat := if n < 10 then 0x30 + n else 0x61 + (n - 10)

/-- `UnicodeEscape`: `\u` and four lower-case hexadecimal digits. -/
def unicodeEscape (c : Nat) : JsString :=
  [0x5C, 0x75, hexDigit (c / 4096 % 16), hexDigit (c / 256 % 16), hexDigit (c / 16 % 16), hexDigit (c % 16)]

/-- A leading (high) surrogate code unit. -/
def isHighSurrogate (c : Nat) : Bool := 0xD800 ≤ c && c ≤ 0xDBFF

/-- A trailing (low) surrogate code unit. -/
def isLowSurrogate (c : Nat) : Bool := 0xDC00 ≤ c && c ≤ 0xDFFF

/-- One code unit as `QuoteJSONString` writes it when it is no half of a
surrogate pair: the two-character escapes, a `\u` escape for the other
control characters and for a lone surrogate, anything else as it is. -/
def escapeUnit (c : Nat) : JsString :=
  if c = 0x08 then [0x5C, 0x62]
  else if c = 0x09 then [0x5C, 0x74]
  else if c = 0x0A then [0x5C, 0x6E]
  else if c = 0x0C then [0x5C, 0x66]
  else if c = 0x0D then [0x5C, 0x72]
  else if c = 0x22 then [0x5C, 0x22]
  else if c = 0x5C then [0x5C, 0x5C]
  else if c < 0x20 ∨ isHighSurrogate c ∨ isLowSurrogate c then unicodeEscape c
  else [c]

/-- The body of `QuoteJSONString`, code point by code point: a surrogate
pair is copied, every other code unit goes through `escapeUnit`. -/
def quoteUnits : JsString → JsString
  | [] => []
  | [c] => escapeUnit c
  | c :: d :: rest =>
    if isHighSurrogate c ∧ isLowSurrogate d then c :: d :: quoteUnits rest
    else escapeUnit c ++ quoteUnits (d :: rest)

/-- The string has no lone surrogate: every leading surrogate is followed by
a trailing one and every trailing one follows a leading one.  These are the
strings `encodeURIComponent` encodes; on any other it throws a `URIError`. -/
def isWellFormed : JsString → Bool
  | [] => true
  | [c] => !(isHighSurrogate c || isLowSurrogate c)
  | c :: d :: rest =>
    if isHighSurrogate c ∧ isLowSurrogate d then isWellFormed rest
    else if isHighSurrogate c ∨ isLowSurrogate c then false
    else isWellFormed (d :: rest)

/-- `QuoteJSONString`. -/
def quoteJSONString (s : JsString) : JsString := [0x22] ++ quoteUnits s ++ [0x22]

/-- The elements of a serialized array of strings, separated by `,`. -/
def serializeStrings : List JsString → JsString
  | [] => []
  | [k] => quoteJSONString k
  | k :: k2 :: ks => quoteJSONString k ++ [0x2C] ++ serializeStrings (k2 :: ks)

/-- `JSON.stringify(n)` for a note object, its four properties in the order
the source creates them. -/
def serializeNote (n : Note) : JsString :=
  lit "\x7b\"summary\":" ++ quoteJSONString n.summary ++
  lit ",\"explanation\":" ++ quoteJSONString n.explanation ++
  lit ",\"keyPoints\":[" ++ serializeStrings n.keyPoints ++
  lit "],\"conclusion\":" ++ quoteJSONString n.conclusion ++ lit "\x7d"

/-- The value `JSON.parse` returns for a serialized note. -/
def noteToJs (n : Note) : JsVal :=
  .obj [(lit "summary", .str n.summary), (lit "explanation", .str n.explanation),
    (lit "keyPoints", .arr (n.keyPoints.map .str)), (lit "conclusion", .str n.conclusion)]

/-! ## The live attempt: `generateWithGemini` -/

/-- The source's constant `MODEL`. -/
def MODEL : JsString := lit "gemini-1.5-flash"

/-- What one call of `fetch` sends that depends on the inputs: the model and
the key of the URL, and the prompt of the body. -/
structure Request where
  model : JsString
  apiKey : JsString
  prompt : JsString
  deriving DecidableEq, Repr

/-- How the one call of `fetch` ends: the promise rejects (the network
fails, or the 25 s timer aborts the request), or a response arrives with a
status and a body whose reading (`res.text()`) may itself reject. -/
inductive FetchResult where
  | rejected (err : JsError)
  | response (status : Nat) (body : Except JsError JsString)

/-- The attribute `res.ok`: a status from 200 to 299. -/
def statusOk (status : Nat) : Bool := 200 ≤ status && status ≤ 299

/-- Decimal digits of an integer status, as a template literal writes it. -/
def decimal (n : Nat) : JsString := (Nat.toDigits 10 n).map Char.toNat

/-- The prompt `generateWithGemini` builds. -/
def buildPrompt (topic level : JsString) : JsString :=
  lit "You are an academic tutor for students.\n" ++
  (lit "Topic: " ++ topic ++ lit "\n") ++
  (lit "Audience: " ++ level ++ lit "\n\n") ++
  lit "Return ONLY valid JSON with exactly these keys:\n" ++
  lit "summary (string)\n" ++
  lit "explanation (string)\n" ++
  lit "keyPoints (array of strings)\n" ++
  lit "conclusion (string)\n\n" ++
  lit "Constraints:\n" ++
  lit "- Keep summary 3-5 sentences.\n" ++
  lit "- Explanation should be simple and structured with short paragraphs.\n" ++
  lit "- keyPoints should be 6-10 bullets.\n" ++
  lit "- conclusion should be 2-3 sentences.\n"

/-- The value of `payload?.candidates?.[0]?.content?.parts`. -/
def partsOf (payload : JsVal) : Option JsVal :=
  getMember (getMember (getIndex0 (getMember (some payload) (lit "candidates"))) (lit "content"))
    (lit "parts")

/-- The source's `candidateText`:
`payload?.candidates?.[0]?.content?.parts?.map((p) => p?.text || '').join('') || text`.
A `parts` that is `null` or `undefined` ends the chain; one that is no array
has no `map` to call. -/
def candidateText (E : Engine) (payload : JsVal) (text : JsString) : Except JsError JsString :=
  match partsOf payload with
  | none => .ok text
  | some .null => .ok text
  | some (.arr ps) =>
    match joinItems E [] (ps.map fun p => orEmpty E (getMember (some p) (lit "text"))) with
    | .error e => .error e
    | .ok joined => .ok (if joined = [] then text else joined)
  | some _ => .error ⟨E.notCallable⟩

/-- The callback chain `data.keyPoints.map((s) => safeTrim(s))`. -/
def trimAll (E : Engine) : List JsVal → Except JsError (List JsString)
  | [] => .ok []
  | k :: ks =>
    match safeTrimVal E (some k) with
    | .error e => .error e
    | .ok s =>
      match trimAll E ks with
      | .error e => .error e
      | .ok ss => .ok (s :: ss)

/-- The value of `out.keyPoints`:
`Array.isArray(data?.keyPoints) ? data.keyPoints.map((s) => safeTrim(s)).filter(Boolean) : []`. -/
def keyPointsOf (E : Engine) (data : JsVal) : Except JsError (List JsString) :=
  match getMember (some data) (lit "keyPoints") with
  | some (.arr ks) =>
    match trimAll E ks with
    | .error e => .error e
    | .ok ss => .ok (ss.filter fun s => decide (s ≠ []))
  | _ => .ok []

/-- The projection of `generateWithGemini`: the object `out` built from the
parsed `data`, and the check of its four fields. -/
def projectNote (E : Engine) (data : JsVal) : Except JsError Note :=
  match safeTrimVal E (getMember (some data) (lit "summary")) with
  | .error e => .error e
  | .ok summary =>
    match safeTrimVal E (getMember (some data) (lit "explanation")) with
    | .error e => .error e
    | .ok explanation =>
      match keyPointsOf E data with
      | .error e => .error e
      | .ok keyPoints =>
        match safeTrimVal E (getMember (some data) (lit "conclusion")) with
        | .error e => .error e
        | .ok conclusion =>
          if summary = [] ∨ explanation = [] ∨ conclusion = [] ∨ keyPoints.length = 0 then
            .error ⟨lit "Model JSON was missing required fields."⟩
          else .ok { summary := summary, explanation := explanation,
                     keyPoints := keyPoints, conclusion := conclusion }

/-- What `generateWithGemini` does with the text of an OK response. -/
def readResponse (E : Engine) (text : JsString) : Except JsError Note :=
  let payload : JsVal := (JSON_parse text).getD .null
  match candidateText E payload text with
  | .error e => .error e
  | .ok candidate =>
    match extractJsonObject candidate with
    | none => .error ⟨lit "Model response did not contain JSON."⟩
    | some jsonText =>
      if jsonText = [] then .error ⟨lit "Model response did not contain JSON."⟩
      else
        match JSON_parse jsonText with
        | none => .error ⟨E.parseErrorMessage jsonText⟩
        | some data => projectNote E data

/-- The request `generateWithGemini` sends. -/
def requestOf (topic level apiKey : JsString) : Request :=
  { model := MODEL, apiKey := apiKey, prompt := buildPrompt topic level }

/-- The source's `generateWithGemini`: the note it resolves to or the value
it throws, and the calls of `fetch` it made.  Building the URL comes first,
inside the `try`: `encodeURIComponent(apiKey)` throws a `URIError` on a key
with a lone surrogate, and then `fetch` is not called (`MODEL` is ASCII and
always encodes). -/
def generateWithGemini (E : Engine) (fetch : Request → FetchResult)
    (topic level apiKey : JsString) : Except JsError Note × List Request :=
  if isWellFormed apiKey = false then (.error ⟨E.malformedURI⟩, [])
  else
    let req := requestOf topic level apiKey
    let result : Except JsError Note :=
      match fetch req with
      | .rejected err => .error err
      | .response status body =>
        match body with
        | .error err => .error err
        | .ok text =>
          if ¬ statusOk status then
            .error ⟨lit "Gemini request failed (" ++ decimal status ++ lit ")."⟩
          else readResponse E text
    (result, [req])

/-! ## The handlers of `initDemo` -/

/-- The two entries of `localStorage` the page uses, `STORAGE.apiKey` and
`STORAGE.remember`; `none` is a missing entry. -/
structure Store where
  apiKey : Option JsString
  remember : Option JsString
  deriving DecidableEq, Repr

/-- The keys of the source's `STORAGE`. -/
inductive StorageKey where
  | apiKey
  | remember
  deriving DecidableEq, Repr

/-- The object `window.localStorage`: its entries, and whether a call of
`setItem` or of `removeItem` on it throws (a full quota, a blocked storage),
which the browser decides from the entries, the key and the value. -/
structure Storage where
  entries : Store
  setItemThrows : Store → StorageKey → JsString → Bool
  removeItemThrows : Store → StorageKey → Bool

/-- The source's `storageSet`; `storage` is `none` when `window.localStorage`
is not available.  A `setItem` that throws is caught and ignored: the
entries stay as they were. -/
def storageSet (storage : Option Storage) (key : StorageKey) (value : JsString) :
    Option Storage :=
  match storage with
  | none => none
  | some st =>
    if st.setItemThrows st.entries key value = true then some st
    else
      match key with
      | .apiKey => some { st with entries := { st.entries with apiKey := some value } }
      | .remember => some { st with entries := { st.entries with remember := some value } }

/-- The source's `storageRemove`.  A `removeItem` that throws is caught and
ignored: the entry stays in place. -/
def storageRemove (storage : Option Storage) (key : StorageKey) : Option Storage :=
  match storage with
  | none => none
  | some st =>
    if st.removeItemThrows st.entries key = true then some st
    else
      match key with
      | .apiKey => some { st with entries := { st.entries with apiKey := none } }
      | .remember => some { st with entries := { st.entries with remember := none } }

/-- What the submit handler reads from the form: `topicEl?.value`,
`levelEl?.value`, `apiKeyEl?.value` and `rememberEl?.checked`, each `none`
when its element is missing. -/
structure Form where
  topic : Option JsString
  level : Option JsString
  apiKey : Option JsString
  remember : Option Bool
  deriving DecidableEq, Repr

/-- What the handlers change: the storage, the status line, the rendered
note, the state of the generate button, and the calls of `fetch` so far. -/
structure Page where
  storage : Option Storage
  status : JsString
  output : Option Note
  generateDisabled : Bool
  requests : List Request

/-- The level the submit handler uses: `levelEl?.value || 'college'`. -/
def levelOf (form : Form) : JsString :=
  match form.level with
  | some l => if l = [] then lit "college" else l
  | none => lit "college"

/-- The status line after a failed live attempt. -/
def failureStatus (err : JsError) : JsString :=
  if err.message ≠ [] then err.message ++ lit " Showing offline sample instead."
  else lit "Live generation failed. Showing offline sample instead."

/-- The submit handler of `initDemo`: the page it leaves, or the value it
throws. -/
def submit (E : Engine) (fetch : Request → FetchResult) (form : Form) (page : Page) :
    Except JsError Page :=
  let topic := safeTrim form.topic
  let level := levelOf form
  let apiKey := safeTrim form.apiKey
  let remember := form.remember.getD false
  if topic = [] then
    .ok { page with status := lit "Please enter a topic." }
  else
    let stored : Option Storage :=
      if remember = true ∧ apiKey ≠ [] then
        storageSet (storageSet page.storage .apiKey apiKey) .remember (lit "1")
      else
        storageSet (storageRemove page.storage .apiKey) .remember (lit "0")
    let busy : Page :=
      { page with
        storage := stored
        generateDisabled := true
        status := if apiKey ≠ [] then lit "Generating with Gemini (live)..."
                  else lit "Generating offline sample..." }
    if apiKey ≠ [] then
      match generateWithGemini E fetch topic level apiKey with
      | (.ok data, sent) =>
        .ok { busy with
              status := lit "Done. Generated live notes."
              output := some data
              requests := busy.requests ++ sent
              generateDisabled := false }
      | (.error err, sent) =>
        .ok { busy with
              status := failureStatus err
              output := some (buildOfflineDemo topic level)
              requests := busy.requests ++ sent
              generateDisabled := false }
    else
      .ok { busy with
            status := lit "Done. Generated offline sample notes (add an API key for live output)."
            output := some (buildOfflineDemo topic level)
            generateDisabled := false }

/-- The click handler of the clear-key button: the form with its key field
emptied and its box unchecked, and the page. -/
def clearKey (form : Form) (page : Page) : Form × Page :=
  ({ form with apiKey := form.apiKey.map fun _ => [], remember := form.remember.map fun _ => false },
   { page with
     storage := storageSet (storageRemove page.storage .apiKey) .remember (lit "0")
     status := lit "Saved key cleared." })

/-! ## Notions the statements use -/

/-- Position `i` holds the first occurrence of `c` in `t`. -/
def FirstAt (t : JsString) (c i : Nat) : Prop :=
  t[i]? = some c ∧ ∀ k, k < i → t[k]? ≠ some c

/-- Position `j` holds the last occurrence of `c` in `t`. -/
def LastAt (t : JsString) (c j : Nat) : Prop :=
  t[j]? = some c ∧ ∀ k, j < k → t[k]? ≠ some c

/-- A string `trim` leaves as it is. -/
def Trimmed (s : JsString) : Prop := trim s = s

/-- An available storage with the given entries on which no call throws. -/
def soundStorage (entries : Store) : Storage :=
  { entries := entries
    setItemThrows := fun _ _ _ => false
    removeItemThrows := fun _ _ => false }

/-- An available storage with the given entries on which writing the
credential throws (and nothing else does). -/
def keyRefusingStorage (entries : Store) : Storage :=
  { entries := entries
    setItemThrows := fun _ key _ => decide (key = StorageKey.apiKey)
    removeItemThrows := fun _ _ => false }

/-- The entries of the storage of a page, when it has one. -/
def entriesOf (page : Page) : Option Store := page.storage.map fun st => st.entries

/-- No call on the storage throws. -/
def NeverThrows (st : Storage) : Prop :=
  (∀ s key value, st.setItemThrows s key value = false) ∧
  (∀ s key, st.removeItemThrows s key = false)

/-- A page no handler has touched, with an empty available storage on which
no call throws. -/
def freshPage : Page :=
  { storage := some (soundStorage { apiKey := none, remember := none })
    status := []
    output := none
    generateDisabled := false
    requests := [] }

instance decTrimmed (s : JsString) : Decidable (Trimmed s) := by
  unfold Trimmed; infer_instance

/-- The explanation `buildOfflineDemo` writes around a topic text and a tone. -/
def explanationTemplate (t tone : JsString) : JsString :=
  lit "This is an offline sample (no API key used). " ++ tone ++ lit "\n\n" ++
  lit "In practice, EduSynth AI would research " ++ t ++
  lit ", then rewrite it as easy notes: what it is, why it matters, and how it works, with key terms defined."

/-- The text `buildOfflineDemo` substitutes for a topic: the trimmed topic,
or `the topic` when that is empty. -/
def topicText (T : JsString) : JsString :=
  if safeTrim (some T) = [] then lit "the topic" else safeTrim (some T)

/-- The storage the submit handler leaves when the topic is not empty. -/
def storedBy (form : Form) (page : Page) : Option Storage :=
  if form.remember.getD false = true ∧ safeTrim form.apiKey ≠ [] then
    storageSet (storageSet page.storage .apiKey (safeTrim form.apiKey)) .remember (lit "1")
  else
    storageSet (storageRemove page.storage .apiKey) .remember (lit "0")

/-- The text `Array.prototype.join` uses for one element. -/
def elemText (E : Engine) (x : JsVal) : Except JsError JsString :=
  match x with
  | .null => .ok []
  | _ => jsToString E x

/-- The value converts to a string without a throw. -/
def Converts (E : Engine) (v : Option JsVal) : Prop := ∃ s, safeTrimVal E v = .ok s

/-- The value is non-empty after trimming: `safeTrim` returns a non-empty string. -/
def NonEmptyAfterTrim (E : Engine) (v : Option JsVal) : Prop :=
  ∃ s, safeTrimVal E v = .ok s ∧ s ≠ []

/-- Every string conversion the projection makes on `data` succeeds. -/
def FieldsConvert (E : Engine) (data : JsVal) : Prop :=
  Converts E (getMember (some data) (lit "summary")) ∧
  Converts E (getMember (some data) (lit "explanation")) ∧
  Converts E (getMember (some data) (lit "conclusion")) ∧
  ∀ ks, getMember (some data) (lit "keyPoints") = some (.arr ks) →
    ∀ k ∈ ks, Converts E (some k)

/-- The validity the claim states: `summary`, `explanation` and `conclusion`
are non-empty after trimming, and `keyPoints` is an array with an element
that is non-empty after trimming. -/
def FieldsValid (E : Engine) (data : JsVal) : Prop :=
  NonEmptyAfterTrim E (getMember (some data) (lit "summary")) ∧
  NonEmptyAfterTrim E (getMember (some data) (lit "explanation")) ∧
  NonEmptyAfterTrim E (getMember (some data) (lit "conclusion")) ∧
  ∃ ks, getMember (some data) (lit "keyPoints") = some (.arr ks) ∧
    ∃ k ∈ ks, NonEmptyAfterTrim E (some k)

/-- A response body whose model JSON has no `conclusion`. -/
def bodyWithoutConclusion : JsString :=
  lit "\x7b\"candidates\":[\x7b\"content\":\x7b\"parts\":[\x7b\"text\":\"\x7b\\\"summary\\\":\\\"S\\\",\\\"explanation\\\":\\\"E\\\",\\\"keyPoints\\\":[\\\"a\\\"]\x7d\"\x7d]\x7d\x7d]\x7d"

/-- The model JSON of `bodyWithoutConclusion`, parsed. -/
def dataWithoutConclusion : JsVal :=
  .obj [(lit "summary", .str (lit "S")), (lit "explanation", .str (lit "E")),
    (lit "keyPoints", .arr [.str (lit "a")])]

/-- Model JSON whose second key point is an object with an own `toString`. -/
def dataWithToString : JsVal :=
  .obj [(lit "summary", .str (lit "S")), (lit "explanation", .str (lit "E")),
    (lit "keyPoints", .arr [.str (lit "a"), .obj [(lit "toString", .num (lit "0"))]]),
    (lit "conclusion", .str (lit "C"))]

/-- The text one part contributes to the candidate text: `p?.text || ''`, as
`join` converts it. -/
def partText (E : Engine) (p : JsVal) : Except JsError JsString :=
  elemText E (orEmpty E (getMember (some p) (lit "text")))

/-- The `text` of a part when it is a string, the empty string when the part
has none. -/
def textOf (p : JsVal) : JsString :=
  match getMember (some p) (lit "text") with
  | some (.str s) => s
  | _ => []

/-- The `text` of the part is a string, or the part has no `text`. -/
def HasStringText (p : JsVal) : Prop :=
  getMember (some p) (lit "text") = none ∨ ∃ s, getMember (some p) (lit "text") = some (.str s)

/-- The response body of the claim's scenario. -/
def liveBody : JsString :=
  lit "\x7b\"candidates\":[\x7b\"content\":\x7b\"parts\":[\x7b\"text\":\"\x7b\\\"summary\\\":\\\"S\\\",\\\"explanation\\\":\\\"E\\\",\\\"keyPoints\\\":[\\\"a\\\",\\\"b\\\"],\\\"conclusion\\\":\\\"C\\\"\x7d\"\x7d]\x7d\x7d]\x7d"

/-- A response body whose one part has an empty `text`, and which carries the
four fields itself. -/
def emptyPartBody : JsString :=
  lit "\x7b\"candidates\":[\x7b\"content\":\x7b\"parts\":[\x7b\"text\":\"\"\x7d]\x7d\x7d],\"summary\":\"S\",\"explanation\":\"E\",\"keyPoints\":[\"a\"],\"conclusion\":\"C\"\x7d"

/-- The parsed `emptyPartBody`. -/
def emptyPartPayload : JsVal :=
  .obj [(lit "candidates", .arr [.obj [(lit "content", .obj [(lit "parts",
      .arr [.obj [(lit "text", .str [])]])])]]),
    (lit "summary", .str (lit "S")), (lit "explanation", .str (lit "E")),
    (lit "keyPoints", .arr [.str (lit "a")]), (lit "conclusion", .str (lit "C"))]

/-- What `parseChars` does with one more decoded unit in front. -/
def consChar (c : Nat) (r : Option (JsString × JsString)) : Option (JsString × JsString) :=
  match r with
  | some (s, t) => some (c :: s, t)
  | none => none

set_option maxRecDepth 1000000

/-! ## Positions, `indexOf`, `lastIndexOf`, `slice` -/

theorem firstAt_indexOf {t : JsString} {c : Nat} (h : c ∈ t) :
    FirstAt t c (List.indexOf c t) := by
  induction t with
  | nil => simp at h
  | cons x xs ih =>
    by_cases hx : x = c
    · subst hx
      refine ⟨by simp, fun k hk => ?_⟩
      simp at hk
    · have hc : c ∈ xs := by
        rcases List.mem_cons.mp h with h1 | h1
        · exact absurd h1.symm hx
        · exact h1
      have hi : List.indexOf c (x :: xs) = List.indexOf c xs + 1 :=
        List.indexOf_cons_ne _ (fun e => hx e)
      rw [hi]
      obtain ⟨h1, h2⟩ := ih hc
      refine ⟨by simpa using h1, fun k hk => ?_⟩
      cases k with
      | zero => simpa using hx
      | succ k => simpa using h2 k (by omega)

theorem firstAt_unique {t : JsString} {c i j : Nat}
    (hi : FirstAt t c i) (hj : FirstAt t c j) : i = j := by
  rcases Nat.lt_trichotomy i j with h | h | h
  · exact absurd hi.1 (hj.2 i h)
  · exact h
  · exact absurd hj.1 (hi.2 j h)

theorem lastAt_unique {t : JsString} {c i j : Nat}
    (hi : LastAt t c i) (hj : LastAt t c j) : i = j := by
  rcases Nat.lt_trichotomy i j with h | h | h
  · exact absurd hj.1 (hi.2 j h)
  · exact h
  · exact absurd hi.1 (hj.2 i h)

theorem firstAt_lt {t : JsString} {c i : Nat} (h : FirstAt t c i) : i < t.length := by
  obtain ⟨hl, _⟩ := List.getElem?_eq_some.mp h.1
  exact hl

theorem lastAt_lt {t : JsString} {c i : Nat} (h : LastAt t c i) : i < t.length := by
  obtain ⟨hl, _⟩ := List.getElem?_eq_some.mp h.1
  exact hl

theorem lastAt_lastIndex {t : JsString} {c : Nat} (h : c ∈ t) :
    LastAt t c (t.length - 1 - List.indexOf c t.reverse) := by
  have hr : c ∈ t.reverse := List.mem_reverse.mpr h
  obtain ⟨h1, h2⟩ := firstAt_indexOf hr
  have hlt : List.indexOf c t.reverse < t.length := by
    have := firstAt_lt ⟨h1, h2⟩
    simpa using this
  refine ⟨?_, fun k hk => ?_⟩
  · rw [List.getElem?_reverse hlt] at h1
    exact h1
  · by_cases hkl : k < t.length
    · have := h2 (t.length - 1 - k) (by omega)
      rw [List.getElem?_reverse (by omega)] at this
      have e : t.length - 1 - (t.length - 1 - k) = k := by omega
      rwa [e] at this
    · rw [List.getElem?_eq_none (by omega)]
      simp

theorem mem_of_firstAt {t : JsString} {c i : Nat} (h : FirstAt t c i) : c ∈ t := by
  obtain ⟨hl, he⟩ := List.getElem?_eq_some.mp h.1
  exact he ▸ List.getElem_mem hl

theorem mem_of_lastAt {t : JsString} {c i : Nat} (h : LastAt t c i) : c ∈ t := by
  obtain ⟨hl, he⟩ := List.getElem?_eq_some.mp h.1
  exact he ▸ List.getElem_mem hl

theorem indexOf_of_firstAt {t : JsString} {c i : Nat} (h : FirstAt t c i) :
    indexOf t c = (i : Int) := by
  have hm := mem_of_firstAt h
  have := firstAt_unique h (firstAt_indexOf hm)
  simp [indexOf, hm, this]

theorem lastIndexOf_of_lastAt {t : JsString} {c j : Nat} (h : LastAt t c j) :
    lastIndexOf t c = (j : Int) := by
  have hm := mem_of_lastAt h
  have := lastAt_unique h (lastAt_lastIndex hm)
  simp only [lastIndexOf, hm, if_true]
  rw [this]

theorem indexOf_eq_neg_one {t : JsString} {c : Nat} : indexOf t c = -1 ↔ c ∉ t := by
  unfold indexOf
  split
  · simp [*]
  · simp [*]

theorem lastIndexOf_eq_neg_one {t : JsString} {c : Nat} : lastIndexOf t c = -1 ↔ c ∉ t := by
  unfold lastIndexOf
  split
  · simp [*]
  · simp [*]

theorem slice_between (t : JsString) (i j : Nat) (hj : j < t.length) (hij : i ≤ j) :
    slice t (i : Int) ((j : Int) + 1) = (t.drop i).take (j + 1 - i) := by
  unfold slice
  have h1 : ¬ ((i : Int) < 0) := by omega
  have h2 : ¬ ((j : Int) + 1 < 0) := by omega
  simp only [h1, h2, if_false]
  have e1 : (min (i : Int) (t.length : Int)).toNat = i := by omega
  have e2 : (min ((j : Int) + 1) (t.length : Int) - min (i : Int) (t.length : Int)).toNat
      = j + 1 - i := by omega
  rw [e1, e2]

/-! ## `extractJsonObject` -/

theorem extract_of_positions {t : JsString} {i j : Nat}
    (hi : FirstAt t lbrace i) (hj : LastAt t rbrace j) :
    extractJsonObject t = if j < i then none else some ((t.drop i).take (j + 1 - i)) := by
  have hne : i ≠ j := by
    intro e
    subst e
    have := hi.1.symm.trans hj.1
    simp [lbrace, rbrace] at this
  unfold extractJsonObject
  simp only [indexOf_of_firstAt hi, lastIndexOf_of_lastAt hj]
  by_cases h : j < i
  · have : ((i : Int) = -1 ∨ (j : Int) = -1 ∨ (j : Int) ≤ i) := by omega
    rw [if_pos this, if_pos h]
  · have : ¬ ((i : Int) = -1 ∨ (j : Int) = -1 ∨ (j : Int) ≤ i) := by omega
    rw [if_neg this, if_neg h, slice_between t i j (lastAt_lt hj) (by omega)]

theorem extract_cases (t : JsString) :
    (extractJsonObject t = none ↔
      (lbrace ∉ t ∨ rbrace ∉ t ∨
        ∃ i j, FirstAt t lbrace i ∧ LastAt t rbrace j ∧ j < i)) ∧
    (extractJsonObject t ≠ none →
      ∃ i j, FirstAt t lbrace i ∧ LastAt t rbrace j ∧ i < j ∧
        extractJsonObject t = some ((t.drop i).take (j + 1 - i))) := by
  by_cases h1 : lbrace ∈ t
  · by_cases h2 : rbrace ∈ t
    · have hi := firstAt_indexOf h1
      have hj := lastAt_lastIndex h2
      have hex := extract_of_positions hi hj
      have hne : List.indexOf lbrace t ≠ t.length - 1 - List.indexOf rbrace t.reverse := by
        intro e
        have := hi.1.symm.trans (e ▸ hj.1)
        simp [lbrace, rbrace] at this
      constructor
      · constructor
        · intro hn
          right; right
          refine ⟨_, _, hi, hj, ?_⟩
          by_contra hlt
          rw [hex, if_neg hlt] at hn
          exact Option.noConfusion hn
        · rintro (h | h | ⟨i, j, hi', hj', hlt⟩)
          · exact absurd h1 h
          · exact absurd h2 h
          · rw [extract_of_positions hi' hj', if_pos hlt]
      · intro hn
        refine ⟨_, _, hi, hj, ?_, ?_⟩
        · by_contra hlt
          have : t.length - 1 - List.indexOf rbrace t.reverse < List.indexOf lbrace t := by omega
          rw [hex, if_pos this] at hn
          exact hn rfl
        · by_cases hlt : t.length - 1 - List.indexOf rbrace t.reverse < List.indexOf lbrace t
          · rw [hex, if_pos hlt] at hn
            exact absurd rfl hn
          · rw [hex, if_neg hlt]
    · have : extractJsonObject t = none := by
        unfold extractJsonObject
        simp [lastIndexOf_eq_neg_one.mpr h2]
      exact ⟨⟨fun _ => Or.inr (Or.inl h2), fun _ => this⟩, fun hn => absurd this hn⟩
  · have : extractJsonObject t = none := by
      unfold extractJsonObject
      simp [indexOf_eq_neg_one.mpr h1]
    exact ⟨⟨fun _ => Or.inl h1, fun _ => this⟩, fun hn => absurd this hn⟩

theorem extract_of_bracketed {t : JsString}
    (hb : t.head? = some lbrace) (he : t.getLast? = some rbrace) :
    extractJsonObject t = some t := by
  have hlen : 0 < t.length := by
    cases t with
    | nil => simp at hb
    | cons x xs => simp
  have hi : FirstAt t lbrace 0 := by
    refine ⟨?_, fun k hk => absurd hk (Nat.not_lt_zero k)⟩
    rw [← List.head?_eq_getElem?]; exact hb
  have hj : LastAt t rbrace (t.length - 1) := by
    refine ⟨?_, fun k hk => ?_⟩
    · rw [← List.getLast?_eq_getElem?]; exact he
    · rw [List.getElem?_eq_none (by omega)]; simp
  rw [extract_of_positions hi hj, if_neg (Nat.not_lt_zero _)]
  have : t.length - 1 + 1 - 0 = t.length := by omega
  simp [this]

theorem extract_result_bracketed {x r : JsString} (hx : extractJsonObject x = some r) :
    r.head? = some lbrace ∧ r.getLast? = some rbrace := by
  obtain ⟨i, j, hi, hj, hlt, hex⟩ := (extract_cases x).2 (by rw [hx]; simp)
  rw [hx] at hex
  have hr : r = (x.drop i).take (j + 1 - i) := Option.some.inj hex
  have hjl := lastAt_lt hj
  constructor
  · rw [hr, List.head?_eq_getElem?, List.getElem?_take_of_lt (by omega), List.getElem?_drop]
    simpa using hi.1
  · rw [hr, List.getLast?_eq_getElem?]
    have hl : ((x.drop i).take (j + 1 - i)).length = j + 1 - i := by
      simp; omega
    rw [hl, List.getElem?_take_of_lt (by omega), List.getElem?_drop]
    have : i + (j + 1 - i - 1) = j := by omega
    rw [this]; exact hj.1

/-- C5: `extractJsonObject` returns none exactly when the text has no `{`, or
no `}`, or its last `}` stands before its first `{`; in every other case it
returns the text from the first `{` to the last `}`, both included. -/
theorem C5_extractJsonObject_spec (t : JsString) :
    (extractJsonObject t = none ↔
      (lbrace ∉ t ∨ rbrace ∉ t ∨
        ∃ i j, FirstAt t lbrace i ∧ LastAt t rbrace j ∧ j < i)) ∧
    (extractJsonObject t ≠ none →
      ∃ i j, FirstAt t lbrace i ∧ LastAt t rbrace j ∧ i < j ∧
        extractJsonObject t = some ((t.drop i).take (j + 1 - i))) :=
  extract_cases t

/-- C6: a text that begins with `{` and ends with `}` is returned unchanged by
`extractJsonObject`, and so is every text `extractJsonObject` returns:
extracting twice is extracting once. -/
theorem C6_extractJsonObject_idempotent :
    (∀ t : JsString, t.head? = some lbrace → t.getLast? = some rbrace →
      extractJsonObject t = some t) ∧
    (∀ x r : JsString, extractJsonObject x = some r → extractJsonObject r = some r) :=
  ⟨fun _ hb he => extract_of_bracketed hb he,
   fun _ _ hx => extract_of_bracketed (extract_result_bracketed hx).1 (extract_result_bracketed hx).2⟩

/-- C6 at the texts `{}` and `say {"a":1} ok`. -/
theorem C6_extractJsonObject_idempotent_witness :
    extractJsonObject (lit "\x7b\x7d") = some (lit "\x7b\x7d") ∧
    extractJsonObject (lit "say \x7b\"a\":1\x7d ok") = some (lit "\x7b\"a\":1\x7d") ∧
    extractJsonObject (lit "\x7b\"a\":1\x7d") = some (lit "\x7b\"a\":1\x7d") :=
  ⟨C6_extractJsonObject_idempotent.1 (lit "\x7b\x7d") (by decide) (by decide),
   by decide,
   C6_extractJsonObject_idempotent.2 (lit "say \x7b\"a\":1\x7d ok") (lit "\x7b\"a\":1\x7d") (by decide)⟩

/-! ## `trim` -/

theorem get_zero_eq_head (l : JsString) (hl : 0 < l.length) (hne : l ≠ []) :
    l.get ⟨0, hl⟩ = l.head hne := by
  cases l with
  | nil => exact absurd rfl hne
  | cons a b => rfl

theorem trim_idem (s : JsString) : trim (trim s) = trim s := by
  unfold trim
  have hd : List.dropWhile isWhiteSpace ((s.dropWhile isWhiteSpace).rdropWhile isWhiteSpace)
      = (s.dropWhile isWhiteSpace).rdropWhile isWhiteSpace := by
    rw [List.dropWhile_eq_self_iff]
    intro hl
    have hne : (s.dropWhile isWhiteSpace).rdropWhile isWhiteSpace ≠ [] :=
      List.ne_nil_of_length_pos hl
    have hpre := List.rdropWhile_prefix isWhiteSpace (s.dropWhile isWhiteSpace)
    have hne2 : s.dropWhile isWhiteSpace ≠ [] := by
      intro e
      rw [e] at hne
      simp [List.rdropWhile] at hne
    have hh := hpre.head hne
    have hnot := List.head_dropWhile_not isWhiteSpace s hne2
    rw [← hh] at hnot
    rw [get_zero_eq_head _ hl hne, hnot]
    simp
  rw [hd, List.rdropWhile_idempotent]

/-! ## `buildOfflineDemo` -/

theorem append_ne_nil_right (a : JsString) {b : JsString} (h : b ≠ []) : a ++ b ≠ [] := by
  simp [h]

theorem buildOfflineDemo_summary (T L : JsString) :
    (buildOfflineDemo T L).summary = topicText T ++
      lit " is explained here in a short, structured format to help you revise quickly." := rfl

theorem buildOfflineDemo_explanation (T L : JsString) :
    (buildOfflineDemo T L).explanation = explanationTemplate (topicText T) (toneOf L) := by
  simp [buildOfflineDemo, explanationTemplate, topicText, List.append_assoc]

theorem buildOfflineDemo_fields (T L : JsString) :
    (buildOfflineDemo T L).summary ≠ [] ∧ (buildOfflineDemo T L).explanation ≠ [] ∧
    (buildOfflineDemo T L).conclusion ≠ [] ∧ (buildOfflineDemo T L).keyPoints.length = 5 := by
  refine ⟨?_, ?_, ?_, rfl⟩
  · rw [buildOfflineDemo_summary]
    exact append_ne_nil_right _ (by decide)
  · simp only [buildOfflineDemo]
    exact append_ne_nil_right _ (append_ne_nil_right _ (by decide))
  · simp only [buildOfflineDemo]
    exact append_ne_nil_right _ (by decide)

theorem trimmed_safeTrim (raw : Option JsString) : Trimmed (safeTrim raw) :=
  trim_idem _

/-- C4: for a topic `T` as `buildOfflineDemo` receives it (non-empty after
trimming and, as the data model has it and every call site passes it,
already trimmed) and any level, the summary, explanation and conclusion of
`buildOfflineDemo(T, L)` are non-empty, `keyPoints` has an element, and `T`
occurs verbatim in the summary, which starts with it.  Whatever the form
holds, the topic the handlers pass is trimmed. -/
theorem C4_buildOfflineDemo_populated (T L : JsString) (h : safeTrim (some T) ≠ [])
    (hT : Trimmed T) :
    (buildOfflineDemo T L).summary ≠ [] ∧ (buildOfflineDemo T L).explanation ≠ [] ∧
    (buildOfflineDemo T L).conclusion ≠ [] ∧ 1 ≤ (buildOfflineDemo T L).keyPoints.length ∧
    T <:+: (buildOfflineDemo T L).summary ∧
    (buildOfflineDemo T L).summary = T ++
      lit " is explained here in a short, structured format to help you revise quickly." ∧
    (∀ raw : Option JsString, Trimmed (safeTrim raw)) := by
  obtain ⟨h1, h2, h3, h4⟩ := buildOfflineDemo_fields T L
  have ht : safeTrim (some T) = T := hT
  have hs : (buildOfflineDemo T L).summary = T ++
      lit " is explained here in a short, structured format to help you revise quickly." := by
    rw [buildOfflineDemo_summary, topicText, if_neg h, ht]
  refine ⟨h1, h2, h3, by omega, ?_, hs, trimmed_safeTrim⟩
  rw [hs]; exact (List.prefix_append _ _).isInfix

/-- C4 at the topic `Photosynthesis`. -/
theorem C4_buildOfflineDemo_populated_witness :
    safeTrim (some (lit "Photosynthesis")) ≠ [] ∧ Trimmed (lit "Photosynthesis") ∧
    lit "Photosynthesis" <:+: (buildOfflineDemo (lit "Photosynthesis") (lit "college")).summary :=
  ⟨by decide, by decide,
   (C4_buildOfflineDemo_populated (lit "Photosynthesis") (lit "college")
      (by decide) (by decide)).2.2.2.2.1⟩

/-- C10: for a topic `T` as `buildOfflineDemo` receives it (non-empty after
trimming) the summary, the key points and the conclusion of
`buildOfflineDemo(T, L)` are the same for every level, and the explanation is
the fixed template with the trimmed `T` substituted and the tone of the
level: one sentence for `school`, one for `exam`, one for every other level. -/
theorem C10_buildOfflineDemo_template (T L : JsString) (h : safeTrim (some T) ≠ []) :
    (∀ L2 : JsString,
      (buildOfflineDemo T L2).summary = (buildOfflineDemo T L).summary ∧
      (buildOfflineDemo T L2).keyPoints = (buildOfflineDemo T L).keyPoints ∧
      (buildOfflineDemo T L2).conclusion = (buildOfflineDemo T L).conclusion) ∧
    (buildOfflineDemo T L).explanation =
      explanationTemplate (safeTrim (some T)) (toneOf L) ∧
    (L = lit "school" → toneOf L = lit "Use simple words and a familiar analogy.") ∧
    (L = lit "exam" → toneOf L = lit "Keep it tight and revision-friendly.") ∧
    (L ≠ lit "school" → L ≠ lit "exam" →
      toneOf L = lit "Be clear and academic, but not too technical.") := by
  refine ⟨fun L2 => ⟨rfl, rfl, rfl⟩, ?_, ?_, ?_, ?_⟩
  · rw [buildOfflineDemo_explanation, topicText, if_neg h]
  · intro h; subst h; decide
  · intro h; subst h; decide
  · intro h1 h2; simp [toneOf, h1, h2]

/-! ## The submit handler, case by case -/

theorem submit_no_topic (E : Engine) (fetch : Request → FetchResult) (form : Form) (page : Page)
    (ht : safeTrim form.topic = []) :
    submit E fetch form page = .ok { page with status := lit "Please enter a topic." } := by
  simp [submit, ht]

theorem submit_offline (E : Engine) (fetch : Request → FetchResult) (form : Form) (page : Page)
    (ht : safeTrim form.topic ≠ []) (hk : safeTrim form.apiKey = []) :
    submit E fetch form page = .ok
      { storage := storedBy form page
        status := lit "Done. Generated offline sample notes (add an API key for live output)."
        output := some (buildOfflineDemo (safeTrim form.topic) (levelOf form))
        generateDisabled := false
        requests := page.requests } := by
  simp [submit, ht, hk, storedBy]

theorem submit_live_ok (E : Engine) (fetch : Request → FetchResult) (form : Form) (page : Page)
    (ht : safeTrim form.topic ≠ []) (hk : safeTrim form.apiKey ≠ []) (data : Note)
    (hg : (generateWithGemini E fetch (safeTrim form.topic) (levelOf form)
            (safeTrim form.apiKey)).1 = .ok data) :
    submit E fetch form page = .ok
      { storage := storedBy form page
        status := lit "Done. Generated live notes."
        output := some data
        generateDisabled := false
        requests := page.requests ++
          (generateWithGemini E fetch (safeTrim form.topic) (levelOf form)
            (safeTrim form.apiKey)).2 } := by
  have hg2 : generateWithGemini E fetch (safeTrim form.topic) (levelOf form)
      (safeTrim form.apiKey) =
      (.ok data, (generateWithGemini E fetch (safeTrim form.topic) (levelOf form)
        (safeTrim form.apiKey)).2) := by
    rw [← hg]
  simp only [submit, ht, hk, storedBy, if_false, ne_eq, not_false_eq_true, if_true]
  rw [hg2]

theorem submit_live_error (E : Engine) (fetch : Request → FetchResult) (form : Form) (page : Page)
    (ht : safeTrim form.topic ≠ []) (hk : safeTrim form.apiKey ≠ []) (err : JsError)
    (hg : (generateWithGemini E fetch (safeTrim form.topic) (levelOf form)
            (safeTrim form.apiKey)).1 = .error err) :
    submit E fetch form page = .ok
      { storage := storedBy form page
        status := failureStatus err
        output := some (buildOfflineDemo (safeTrim form.topic) (levelOf form))
        generateDisabled := false
        requests := page.requests ++
          (generateWithGemini E fetch (safeTrim form.topic) (levelOf form)
            (safeTrim form.apiKey)).2 } := by
  have hg2 : generateWithGemini E fetch (safeTrim form.topic) (levelOf form)
      (safeTrim form.apiKey) =
      (.error err, (generateWithGemini E fetch (safeTrim form.topic) (levelOf form)
        (safeTrim form.apiKey)).2) := by
    rw [← hg]
  simp only [submit, ht, hk, storedBy, if_false, ne_eq, not_false_eq_true, if_true]
  rw [hg2]

theorem submit_storage (E : Engine) (fetch : Request → FetchResult) (form : Form) (page : Page)
    (ht : safeTrim form.topic ≠ []) :
    ∃ p, submit E fetch form page = .ok p ∧ p.storage = storedBy form page := by
  by_cases hk : safeTrim form.apiKey = []
  · exact ⟨_, submit_offline E fetch form page ht hk, rfl⟩
  · cases hg : (generateWithGemini E fetch (safeTrim form.topic) (levelOf form)
        (safeTrim form.apiKey)).1 with
    | ok data => exact ⟨_, submit_live_ok E fetch form page ht hk data hg, rfl⟩
    | error err => exact ⟨_, submit_live_error E fetch form page ht hk err hg, rfl⟩

theorem trim_eq_nil_of_all {s : JsString} (h : ∀ c ∈ s, isWhiteSpace c = true) : trim s = [] := by
  have : s.dropWhile isWhiteSpace = [] := List.dropWhile_eq_nil_iff.mpr h
  simp [trim, this, List.rdropWhile]

theorem safeTrim_eq_nil_of_blank {k : Option JsString}
    (h : ∀ s, k = some s → ∀ c ∈ s, isWhiteSpace c = true) : safeTrim k = [] := by
  cases k with
  | none => simp [safeTrim, trim, List.rdropWhile]
  | some s => exact trim_eq_nil_of_all (h s rfl)

/-- C2: a submit with a non-empty trimmed topic and a credential that is
absent, empty or only white space makes no network call (the record of the
calls of `fetch` is unchanged, and the outcome does not depend on what `fetch`
or the engine would do), renders `buildOfflineDemo(topic, level)`, and leaves
a status that contains `offline`. -/
theorem C2_no_credential_offline (E : Engine) (fetch : Request → FetchResult) (form : Form)
    (page : Page) (ht : safeTrim form.topic ≠ [])
    (hk : ∀ s, form.apiKey = some s → ∀ c ∈ s, isWhiteSpace c = true) :
    ∃ p, submit E fetch form page = .ok p ∧
      p.requests = page.requests ∧
      p.output = some (buildOfflineDemo (safeTrim form.topic) (levelOf form)) ∧
      lit "offline" <:+: p.status ∧
      ∀ (E2 : Engine) (fetch2 : Request → FetchResult), submit E2 fetch2 form page = .ok p := by
  have hk2 := safeTrim_eq_nil_of_blank hk
  refine ⟨_, submit_offline E fetch form page ht hk2, rfl, rfl, ?_, fun E2 fetch2 =>
    submit_offline E2 fetch2 form page ht hk2⟩
  show lit "offline" <:+: lit "Done. Generated offline sample notes (add an API key for live output)."
  decide

/-- C2 at the topic `Photosynthesis` with a credential of two spaces. -/
theorem C2_no_credential_offline_witness :
    ∃ p, submit v8 (fun _ => .rejected ⟨[]⟩)
        ⟨some (lit "Photosynthesis"), some (lit "school"), some (lit "  "), some true⟩ freshPage = .ok p ∧
      p.requests = [] ∧
      p.output = some (buildOfflineDemo (lit "Photosynthesis") (lit "school")) ∧
      lit "offline" <:+: p.status := by
  obtain ⟨p, h1, h2, h3, h4, _⟩ := C2_no_credential_offline v8 (fun _ => .rejected ⟨[]⟩)
    ⟨some (lit "Photosynthesis"), some (lit "school"), some (lit "  "), some true⟩ freshPage
    (by decide) (by decide)
  exact ⟨p, h1, h2, h3, h4⟩

/-- C9, as the code has it: on an available storage on which no call throws,
a submit whose trimmed topic is not empty leaves the trimmed credential and
the flag `1` when `remember` is checked and that credential is not empty, and
no credential and the flag `0` when `remember` is unchecked (or the credential
is empty); the clear action leaves no credential and the flag `0`; so after
such a submit or a clear, the flag `1` implies a non-empty saved credential.
A submit whose trimmed topic is empty returns before the storage is touched,
and a storage call that throws is ignored and leaves the storage as it was. -/
theorem C9_store_lifecycle (E : Engine) (fetch : Request → FetchResult) (form : Form)
    (page : Page) (st : Storage) (hst : page.storage = some st) (hok : NeverThrows st) :
    (safeTrim form.topic ≠ [] → form.remember = some true → safeTrim form.apiKey ≠ [] →
      ∃ p, submit E fetch form page = .ok p ∧
        entriesOf p = some ⟨some (safeTrim form.apiKey), some (lit "1")⟩) ∧
    (safeTrim form.topic ≠ [] → form.remember.getD false = false →
      ∃ p, submit E fetch form page = .ok p ∧ entriesOf p = some ⟨none, some (lit "0")⟩) ∧
    (safeTrim form.topic ≠ [] → safeTrim form.apiKey = [] →
      ∃ p, submit E fetch form page = .ok p ∧ entriesOf p = some ⟨none, some (lit "0")⟩) ∧
    entriesOf (clearKey form page).2 = some ⟨none, some (lit "0")⟩ ∧
    (safeTrim form.topic ≠ [] →
      ∃ p, submit E fetch form page = .ok p ∧
        ∀ s2, entriesOf p = some s2 → s2.remember = some (lit "1") →
          ∃ k, s2.apiKey = some k ∧ k ≠ []) ∧
    (safeTrim form.topic = [] →
      ∃ p, submit E fetch form page = .ok p ∧ p.storage = page.storage) ∧
    (∀ (st2 : Storage) (key : StorageKey) (value : JsString),
      st2.setItemThrows st2.entries key value = true →
      storageSet (some st2) key value = some st2) ∧
    (∀ (st2 : Storage) (key : StorageKey),
      st2.removeItemThrows st2.entries key = true → storageRemove (some st2) key = some st2) := by
  obtain ⟨hset, hrem⟩ := hok
  refine ⟨?_, ?_, ?_, ?_, ?_, ?_, ?_, ?_⟩
  · intro ht hr hk
    obtain ⟨p, hp, hs⟩ := submit_storage E fetch form page ht
    refine ⟨p, hp, ?_⟩
    simp [entriesOf, hs, storedBy, hr, hk, hst, storageSet, hset]
  · intro ht hr
    obtain ⟨p, hp, hs⟩ := submit_storage E fetch form page ht
    refine ⟨p, hp, ?_⟩
    simp [entriesOf, hs, storedBy, hr, hst, storageSet, storageRemove, hset, hrem]
  · intro ht hk
    obtain ⟨p, hp, hs⟩ := submit_storage E fetch form page ht
    refine ⟨p, hp, ?_⟩
    simp [entriesOf, hs, storedBy, hk, hst, storageSet, storageRemove, hset, hrem]
  · simp [entriesOf, clearKey, hst, storageSet, storageRemove, hset, hrem]
  · intro ht
    obtain ⟨p, hp, hs⟩ := submit_storage E fetch form page ht
    refine ⟨p, hp, ?_⟩
    intro s2 h2 hflag
    by_cases hc : form.remember.getD false = true ∧ safeTrim form.apiKey ≠ []
    · simp [entriesOf, hs, storedBy, hc, hst, storageSet, hset] at h2
      subst h2
      exact ⟨_, rfl, hc.2⟩
    · simp only [entriesOf, hs, storedBy, hc, if_false, hst, storageSet, storageRemove, hset,
        hrem, Option.map_some', Bool.false_eq_true] at h2
      have h3 := Option.some.inj h2
      subst h3
      exact absurd (Option.some.inj hflag) (by decide)
  · intro ht
    exact ⟨_, submit_no_topic E fetch form page ht, rfl⟩
  · intro st2 key value h
    simp [storageSet, h]
  · intro st2 key h
    simp [storageRemove, h]

/-- C9 at a submit of the topic `Photosynthesis` with the key `k` and
`remember` checked, on an empty storage on which no call throws. -/
theorem C9_store_lifecycle_witness :
    ∃ p, submit v8 (fun _ => .rejected ⟨[]⟩)
        ⟨some (lit "Photosynthesis"), none, some (lit "k"), some true⟩ freshPage = .ok p ∧
      entriesOf p = some ⟨some (lit "k"), some (lit "1")⟩ :=
  (C9_store_lifecycle v8 (fun _ => .rejected ⟨[]⟩)
    ⟨some (lit "Photosynthesis"), none, some (lit "k"), some true⟩ freshPage
    (soundStorage ⟨none, none⟩) rfl ⟨fun _ _ _ => rfl, fun _ _ => rfl⟩).1
    (by decide) rfl (by decide)

/-- C9 as stated fails in two ways.  At a submit with an empty topic,
`remember` checked and the credential `k`, the storage is left as it was,
without the credential; where it held the flag `1` and no credential, it
still does.  At a submit of the topic `Photosynthesis` with `remember`
checked and the credential `k`, on a storage that refuses the credential,
the ignored failure leaves the flag `1` and no credential. -/
theorem C9_store_lifecycle_counterexample :
    (submit v8 (fun _ => .rejected ⟨[]⟩) ⟨some [], none, some (lit "k"), some true⟩ freshPage).map
        entriesOf = .ok (some ⟨none, none⟩) ∧
    (submit v8 (fun _ => .rejected ⟨[]⟩) ⟨some [], none, some (lit "k"), some true⟩
        { freshPage with storage := some (soundStorage ⟨none, some (lit "1")⟩) }).map
        entriesOf = .ok (some ⟨none, some (lit "1")⟩) ∧
    (submit v8 (fun _ => .rejected ⟨[]⟩)
        ⟨some (lit "Photosynthesis"), none, some (lit "k"), some true⟩
        { freshPage with storage := some (keyRefusingStorage ⟨none, none⟩) }).map
        entriesOf = .ok (some ⟨none, some (lit "1")⟩) := by
  decide

/-! ## The live attempt and its failures -/

theorem generate_malformed (E : Engine) (fetch : Request → FetchResult)
    (topic level apiKey : JsString) (hw : isWellFormed apiKey = false) :
    generateWithGemini E fetch topic level apiKey = (.error ⟨E.malformedURI⟩, []) := by
  simp [generateWithGemini, hw]

theorem generate_sent (E : Engine) (fetch : Request → FetchResult)
    (topic level apiKey : JsString) (hw : isWellFormed apiKey = true) :
    (generateWithGemini E fetch topic level apiKey).2 = [requestOf topic level apiKey] := by
  simp [generateWithGemini, hw]

theorem generate_rejected (E : Engine) (fetch : Request → FetchResult)
    (topic level apiKey : JsString) (err : JsError) (hw : isWellFormed apiKey = true)
    (hf : fetch (requestOf topic level apiKey) = .rejected err) :
    (generateWithGemini E fetch topic level apiKey).1 = .error err := by
  simp [generateWithGemini, hw, hf]

theorem generate_body_rejected (E : Engine) (fetch : Request → FetchResult)
    (topic level apiKey : JsString) (status : Nat) (err : JsError)
    (hw : isWellFormed apiKey = true)
    (hf : fetch (requestOf topic level apiKey) = .response status (.error err)) :
    (generateWithGemini E fetch topic level apiKey).1 = .error err := by
  simp [generateWithGemini, hw, hf]

theorem generate_not_ok (E : Engine) (fetch : Request → FetchResult)
    (topic level apiKey : JsString) (status : Nat) (text : JsString)
    (hw : isWellFormed apiKey = true)
    (hf : fetch (requestOf topic level apiKey) = .response status (.ok text))
    (hs : statusOk status = false) :
    (generateWithGemini E fetch topic level apiKey).1 =
      .error ⟨lit "Gemini request failed (" ++ decimal status ++ lit ")."⟩ := by
  simp [generateWithGemini, hw, hf, hs]

theorem generate_ok_status (E : Engine) (fetch : Request → FetchResult)
    (topic level apiKey : JsString) (status : Nat) (text : JsString)
    (hw : isWellFormed apiKey = true)
    (hf : fetch (requestOf topic level apiKey) = .response status (.ok text))
    (hs : statusOk status = true) :
    (generateWithGemini E fetch topic level apiKey).1 = readResponse E text := by
  simp [generateWithGemini, hw, hf, hs]

theorem readResponse_no_json (E : Engine) (text candidate : JsString)
    (hc : candidateText E ((JSON_parse text).getD .null) text = .ok candidate)
    (hx : extractJsonObject candidate = none) :
    readResponse E text = .error ⟨lit "Model response did not contain JSON."⟩ := by
  simp [readResponse, hc, hx]

theorem extract_ne_nil {x r : JsString} (hx : extractJsonObject x = some r) : r ≠ [] := by
  intro e
  have := (extract_result_bracketed hx).1
  rw [e] at this
  simp at this

theorem readResponse_parsed (E : Engine) (text candidate jsonText : JsString)
    (hc : candidateText E ((JSON_parse text).getD .null) text = .ok candidate)
    (hx : extractJsonObject candidate = some jsonText) :
    readResponse E text =
      match JSON_parse jsonText with
      | none => .error ⟨E.parseErrorMessage jsonText⟩
      | some data => projectNote E data := by
  simp [readResponse, hc, hx, extract_ne_nil hx]

theorem readResponse_candidate_error (E : Engine) (text : JsString) (err : JsError)
    (hc : candidateText E ((JSON_parse text).getD .null) text = .error err) :
    readResponse E text = .error err := by
  simp [readResponse, hc]

/-- C1: a submit with a non-empty trimmed topic and a non-empty trimmed
credential whose live attempt fails in any way does not raise: it renders
exactly `buildOfflineDemo(topic, level)`, whose four fields are populated, and
its status is the failure's message followed by ` Showing offline sample
instead.`, or `Live generation failed. Showing offline sample instead.` when
the failure has no message.  The live attempt does fail, with the message
given: once the request is sent (the credential encodes into the URL), when
`fetch` rejects (the 25 s abort included), when reading the body rejects, on a
status that is not OK, when the candidate text holds no JSON object, when
that object does not parse, and when the projection fails; and before any
request, when the credential does not encode. -/
theorem C1_live_failure_falls_back (E : Engine) (fetch : Request → FetchResult) (form : Form)
    (page : Page) (ht : safeTrim form.topic ≠ []) (hk : safeTrim form.apiKey ≠ []) :
    (∀ err, (generateWithGemini E fetch (safeTrim form.topic) (levelOf form)
          (safeTrim form.apiKey)).1 = .error err →
      ∃ p, submit E fetch form page = .ok p ∧
        p.output = some (buildOfflineDemo (safeTrim form.topic) (levelOf form)) ∧
        (buildOfflineDemo (safeTrim form.topic) (levelOf form)).summary ≠ [] ∧
        (buildOfflineDemo (safeTrim form.topic) (levelOf form)).explanation ≠ [] ∧
        (buildOfflineDemo (safeTrim form.topic) (levelOf form)).keyPoints ≠ [] ∧
        (buildOfflineDemo (safeTrim form.topic) (levelOf form)).conclusion ≠ [] ∧
        (err.message ≠ [] → p.status = err.message ++ lit " Showing offline sample instead.") ∧
        (err.message = [] →
          p.status = lit "Live generation failed. Showing offline sample instead.")) ∧
    (isWellFormed (safeTrim form.apiKey) = false →
      generateWithGemini E fetch (safeTrim form.topic) (levelOf form) (safeTrim form.apiKey)
        = (.error ⟨E.malformedURI⟩, [])) ∧
    (isWellFormed (safeTrim form.apiKey) = true →
      (generateWithGemini E fetch (safeTrim form.topic) (levelOf form)
        (safeTrim form.apiKey)).2 =
          [requestOf (safeTrim form.topic) (levelOf form) (safeTrim form.apiKey)] ∧
      (∀ err, fetch (requestOf (safeTrim form.topic) (levelOf form) (safeTrim form.apiKey))
            = .rejected err →
        (generateWithGemini E fetch (safeTrim form.topic) (levelOf form)
          (safeTrim form.apiKey)).1 = .error err) ∧
      (∀ status err,
        fetch (requestOf (safeTrim form.topic) (levelOf form) (safeTrim form.apiKey))
            = .response status (.error err) →
        (generateWithGemini E fetch (safeTrim form.topic) (levelOf form)
          (safeTrim form.apiKey)).1 = .error err) ∧
      (∀ status text,
        fetch (requestOf (safeTrim form.topic) (levelOf form) (safeTrim form.apiKey))
            = .response status (.ok text) → statusOk status = false →
        (generateWithGemini E fetch (safeTrim form.topic) (levelOf form)
          (safeTrim form.apiKey)).1 =
            .error ⟨lit "Gemini request failed (" ++ decimal status ++ lit ")."⟩) ∧
      (∀ status text,
        fetch (requestOf (safeTrim form.topic) (levelOf form) (safeTrim form.apiKey))
            = .response status (.ok text) → statusOk status = true →
        (∀ err, candidateText E ((JSON_parse text).getD .null) text = .error err →
          (generateWithGemini E fetch (safeTrim form.topic) (levelOf form)
            (safeTrim form.apiKey)).1 = .error err) ∧
        (∀ candidate, candidateText E ((JSON_parse text).getD .null) text = .ok candidate →
          extractJsonObject candidate = none →
          (generateWithGemini E fetch (safeTrim form.topic) (levelOf form)
            (safeTrim form.apiKey)).1 = .error ⟨lit "Model response did not contain JSON."⟩) ∧
        (∀ candidate jsonText,
          candidateText E ((JSON_parse text).getD .null) text = .ok candidate →
          extractJsonObject candidate = some jsonText → JSON_parse jsonText = none →
          (generateWithGemini E fetch (safeTrim form.topic) (levelOf form)
            (safeTrim form.apiKey)).1 = .error ⟨E.parseErrorMessage jsonText⟩) ∧
        (∀ candidate jsonText data err,
          candidateText E ((JSON_parse text).getD .null) text = .ok candidate →
          extractJsonObject candidate = some jsonText → JSON_parse jsonText = some data →
          projectNote E data = .error err →
          (generateWithGemini E fetch (safeTrim form.topic) (levelOf form)
            (safeTrim form.apiKey)).1 = .error err))) := by
  refine ⟨?_, ?_, ?_⟩
  · intro err hg
    obtain ⟨h1, h2, h3, h4⟩ := buildOfflineDemo_fields (safeTrim form.topic) (levelOf form)
    refine ⟨_, submit_live_error E fetch form page ht hk err hg, rfl, h1, h2, ?_, h3, ?_, ?_⟩
    · intro e
      rw [e] at h4
      exact absurd h4 (by decide)
    · intro hm
      show failureStatus err = _
      simp [failureStatus, hm]
    · intro hm
      show failureStatus err = _
      simp [failureStatus, hm]
  · exact fun hw => generate_malformed E fetch _ _ _ hw
  · intro hw
    refine ⟨generate_sent E fetch _ _ _ hw, ?_, ?_, ?_, ?_⟩
    · exact fun err hf => generate_rejected E fetch _ _ _ err hw hf
    · exact fun status err hf => generate_body_rejected E fetch _ _ _ status err hw hf
    · exact fun status text hf hs => generate_not_ok E fetch _ _ _ status text hw hf hs
    · intro status text hf hs
      have hg := generate_ok_status E fetch _ _ _ status text hw hf hs
      refine ⟨?_, ?_, ?_, ?_⟩
      · intro err hc
        rw [hg, readResponse_candidate_error E text err hc]
      · intro candidate hc hx
        rw [hg, readResponse_no_json E text candidate hc hx]
      · intro candidate jsonText hc hx hp
        rw [hg, readResponse_parsed E text candidate jsonText hc hx, hp]
      · intro candidate jsonText data err hc hx hp he
        rw [hg, readResponse_parsed E text candidate jsonText hc hx, hp]
        exact he

/-- C1 at a rejected `fetch` with the message `Failed to fetch`, and the
messages of the other failures: a response with status 503, a body without
braces, a body whose braces hold no JSON, model JSON without `conclusion`,
and a credential that is a lone surrogate. -/
theorem C1_live_failure_falls_back_witness :
    (∃ p, submit v8 (fun _ => .rejected ⟨lit "Failed to fetch"⟩)
        ⟨some (lit "Photosynthesis"), some (lit "exam"), some (lit "k"), some false⟩ freshPage
          = .ok p ∧
      p.output = some (buildOfflineDemo (lit "Photosynthesis") (lit "exam")) ∧
      p.status = lit "Failed to fetch Showing offline sample instead.") ∧
    (generateWithGemini v8 (fun _ => .response 503 (.ok (lit "busy")))
        (lit "Photosynthesis") (lit "exam") (lit "k")).1 =
      .error ⟨lit "Gemini request failed (503)."⟩ ∧
    (generateWithGemini v8 (fun _ => .response 200 (.ok (lit "I cannot help with that.")))
        (lit "Photosynthesis") (lit "exam") (lit "k")).1 =
      .error ⟨lit "Model response did not contain JSON."⟩ ∧
    (generateWithGemini v8 (fun _ => .response 200 (.ok (lit "\x7bnot json\x7d")))
        (lit "Photosynthesis") (lit "exam") (lit "k")).1 =
      .error ⟨v8.parseErrorMessage (lit "\x7bnot json\x7d")⟩ ∧
    (generateWithGemini v8 (fun _ => .response 200 (.ok bodyWithoutConclusion))
        (lit "Photosynthesis") (lit "exam") (lit "k")).1 =
      .error ⟨lit "Model JSON was missing required fields."⟩ ∧
    (∃ p, submit v8 (fun _ => .response 200 (.ok liveBody))
        ⟨some (lit "Photosynthesis"), some (lit "exam"), some [0xD800], some false⟩ freshPage
          = .ok p ∧
      p.output = some (buildOfflineDemo (lit "Photosynthesis") (lit "exam")) ∧
      p.status = lit "URI malformed Showing offline sample instead." ∧
      p.requests = []) := by
  have h := C1_live_failure_falls_back v8 (fun _ => .rejected ⟨lit "Failed to fetch"⟩)
    ⟨some (lit "Photosynthesis"), some (lit "exam"), some (lit "k"), some false⟩ freshPage
    (by decide) (by decide)
  obtain ⟨p, hp, ho, _, _, _, _, hs, _⟩ :=
    h.1 ⟨lit "Failed to fetch"⟩ ((h.2.2 (by decide)).2.1 _ rfl)
  have h2 := C1_live_failure_falls_back v8 (fun _ => .response 200 (.ok liveBody))
    ⟨some (lit "Photosynthesis"), some (lit "exam"), some [0xD800], some false⟩ freshPage
    (by decide) (by decide)
  have hm := h2.2.1 (by decide)
  obtain ⟨q, hq, hqo, _, _, _, _, hqs, _⟩ := h2.1 ⟨lit "URI malformed"⟩ (by rw [hm]; rfl)
  refine ⟨⟨p, hp, ho, hs (by decide)⟩, by decide, by decide, by decide, by decide,
    ⟨q, hq, hqo, hqs (by decide), ?_⟩⟩
  have hq2 := submit_live_error v8 (fun _ => .response 200 (.ok liveBody))
    ⟨some (lit "Photosynthesis"), some (lit "exam"), some [0xD800], some false⟩ freshPage
    (by decide) (by decide) ⟨lit "URI malformed"⟩ (by rw [hm]; rfl)
  rw [hq2] at hq
  have hq3 := Except.ok.inj hq
  rw [← hq3]
  show freshPage.requests ++ (generateWithGemini v8 _ _ _ _).2 = []
  rw [hm]
  rfl

/-! ## `trim`, `safeTrim` and the projection -/

theorem safeTrimVal_str (E : Engine) (s : JsString) :
    safeTrimVal E (some (.str s)) = .ok (trim s) := by
  by_cases h : s = []
  · subst h
    simp [safeTrimVal, orEmpty, truthy, jsToString]
  · simp [safeTrimVal, orEmpty, truthy, jsToString, h]

theorem safeTrimVal_trimmed (E : Engine) (v : Option JsVal) (s : JsString)
    (h : safeTrimVal E v = .ok s) : Trimmed s := by
  unfold safeTrimVal at h
  split at h
  · exact absurd h (by simp)
  · rename_i r _
    have : trim r = s := by simpa using h
    rw [← this]
    exact trim_idem r

theorem joinItems_cons (E : Engine) (sep : JsString) (x : JsVal) (rest : List JsVal) :
    joinItems E sep (x :: rest) =
      match elemText E x with
      | .error e => .error e
      | .ok s =>
        match rest with
        | [] => .ok s
        | _ :: _ =>
          match joinItems E sep rest with
          | .error e => .error e
          | .ok t => .ok (s ++ sep ++ t) := by
  cases x <;> simp [joinItems, elemText]

mutual
theorem jsToString_error (E : Engine) :
    ∀ (v : JsVal) (e : JsError), jsToString E v = .error e → e = ⟨E.notPrimitive⟩
  | .null, e, h => by simp [jsToString] at h
  | .bool true, e, h => by simp [jsToString] at h
  | .bool false, e, h => by simp [jsToString] at h
  | .num l, e, h => by simp [jsToString] at h
  | .str s, e, h => by simp [jsToString] at h
  | .arr items, e, h => joinItems_error E (lit ",") items e (by simpa [jsToString] using h)
  | .obj ms, e, h => by
    simp only [jsToString] at h
    split at h
    · exact (Except.error.inj h).symm
    · exact absurd h (by simp)
theorem joinItems_error (E : Engine) (sep : JsString) :
    ∀ (xs : List JsVal) (e : JsError), joinItems E sep xs = .error e → e = ⟨E.notPrimitive⟩
  | [], e, h => by simp [joinItems] at h
  | x :: rest, e, h => by
    have hx : ∀ e2, elemText E x = .error e2 → e2 = ⟨E.notPrimitive⟩ := by
      intro e2 h2
      cases x with
      | null => simp [elemText] at h2
      | bool b => exact jsToString_error E (.bool b) e2 (by simpa [elemText] using h2)
      | num l => exact jsToString_error E (.num l) e2 (by simpa [elemText] using h2)
      | str s => exact jsToString_error E (.str s) e2 (by simpa [elemText] using h2)
      | arr xs => exact jsToString_error E (.arr xs) e2 (by simpa [elemText] using h2)
      | obj ms => exact jsToString_error E (.obj ms) e2 (by simpa [elemText] using h2)
    have hr : ∀ e2, joinItems E sep rest = .error e2 → e2 = ⟨E.notPrimitive⟩ :=
      fun e2 h2 => joinItems_error E sep rest e2 h2
    rw [joinItems_cons] at h
    cases hf : elemText E x with
    | error e2 =>
      rw [hf] at h
      simp at h
      rw [← h]; exact hx e2 hf
    | ok s =>
      rw [hf] at h
      cases rest with
      | nil => simp at h
      | cons y ys =>
        simp only at h
        cases hj : joinItems E sep (y :: ys) with
        | error e2 => rw [hj] at h; simp at h; rw [← h]; exact hr e2 hj
        | ok t => rw [hj] at h; simp at h
end

theorem safeTrimVal_error (E : Engine) (v : Option JsVal) (e : JsError)
    (h : safeTrimVal E v = .error e) : e = ⟨E.notPrimitive⟩ := by
  unfold safeTrimVal at h
  split at h
  · rename_i e2 he
    have := jsToString_error E _ e2 he
    rw [← this]; exact (Except.error.inj h).symm
  · exact absurd h (by simp)

theorem trimAll_ok_mem (E : Engine) :
    ∀ (ks : List JsVal) (ss : List JsString), trimAll E ks = .ok ss →
      (∀ k ∈ ks, ∃ s ∈ ss, safeTrimVal E (some k) = .ok s) ∧
      (∀ s ∈ ss, ∃ k ∈ ks, safeTrimVal E (some k) = .ok s)
  | [], ss, h => by
    simp only [trimAll] at h
    have := Except.ok.inj h
    subst this
    simp
  | k :: ks, ss, h => by
    simp only [trimAll] at h
    cases hk : safeTrimVal E (some k) with
    | error e => rw [hk] at h; simp at h
    | ok s =>
      rw [hk] at h
      cases hr : trimAll E ks with
      | error e => rw [hr] at h; simp at h
      | ok rest =>
        rw [hr] at h
        have hss : s :: rest = ss := Except.ok.inj h
        subst hss
        obtain ⟨h1, h2⟩ := trimAll_ok_mem E ks rest hr
        constructor
        · intro k2 hk2
          rcases List.mem_cons.mp hk2 with e | hm
          · subst e; exact ⟨s, List.mem_cons_self _ _, hk⟩
          · obtain ⟨s2, hs2, hc⟩ := h1 k2 hm
            exact ⟨s2, List.mem_cons_of_mem _ hs2, hc⟩
        · intro s2 hs2
          rcases List.mem_cons.mp hs2 with e | hm
          · subst e; exact ⟨k, List.mem_cons_self _ _, hk⟩
          · obtain ⟨k2, hk2, hc⟩ := h2 s2 hm
            exact ⟨k2, List.mem_cons_of_mem _ hk2, hc⟩

theorem trimAll_error_mem (E : Engine) :
    ∀ (ks : List JsVal) (e : JsError), trimAll E ks = .error e →
      e = ⟨E.notPrimitive⟩ ∧ ∃ k ∈ ks, ¬ Converts E (some k)
  | [], e, h => by simp [trimAll] at h
  | k :: ks, e, h => by
    simp only [trimAll] at h
    cases hk : safeTrimVal E (some k) with
    | error e2 =>
      rw [hk] at h
      have he : e2 = e := Except.error.inj h
      subst he
      refine ⟨safeTrimVal_error E _ _ hk, k, List.mem_cons_self _ _, ?_⟩
      rintro ⟨s, hs⟩
      rw [hk] at hs
      exact absurd hs (by simp)
    | ok s =>
      rw [hk] at h
      cases hr : trimAll E ks with
      | error e2 =>
        rw [hr] at h
        have he : e2 = e := Except.error.inj h
        subst he
        obtain ⟨h1, k2, hk2, hc⟩ := trimAll_error_mem E ks e2 hr
        exact ⟨h1, k2, List.mem_cons_of_mem _ hk2, hc⟩
      | ok rest => rw [hr] at h; simp at h

theorem keyPointsOf_ok (E : Engine) (data : JsVal) (kp : List JsString)
    (h : keyPointsOf E data = .ok kp) :
    (∀ ks, getMember (some data) (lit "keyPoints") = some (.arr ks) →
      ∀ k ∈ ks, Converts E (some k)) ∧
    (∀ s ∈ kp, s ≠ [] ∧ Trimmed s) ∧
    (kp ≠ [] ↔ ∃ ks, getMember (some data) (lit "keyPoints") = some (.arr ks) ∧
      ∃ k ∈ ks, NonEmptyAfterTrim E (some k)) := by
  unfold keyPointsOf at h
  split at h
  · rename_i ks hks
    cases hr : trimAll E ks with
    | error e => rw [hr] at h; simp at h
    | ok ss =>
      rw [hr] at h
      have hkp : ss.filter (fun s => decide (s ≠ [])) = kp := Except.ok.inj h
      obtain ⟨h1, h2⟩ := trimAll_ok_mem E ks ss hr
      refine ⟨?_, ?_, ?_⟩
      · intro ks2 hks2 k hk
        rw [hks] at hks2
        have : ks = ks2 := by simpa using hks2
        subst this
        obtain ⟨s, _, hs⟩ := h1 k hk
        exact ⟨s, hs⟩
      · intro s hs
        rw [← hkp, List.mem_filter] at hs
        obtain ⟨k, _, hk⟩ := h2 s hs.1
        exact ⟨by simpa using hs.2, safeTrimVal_trimmed E _ s hk⟩
      · constructor
        · intro hne
          obtain ⟨s, hs⟩ := List.exists_mem_of_ne_nil _ hne
          rw [← hkp, List.mem_filter] at hs
          obtain ⟨k, hk, hc⟩ := h2 s hs.1
          exact ⟨ks, hks, k, hk, s, hc, by simpa using hs.2⟩
        · rintro ⟨ks2, hks2, k, hk, s, hc, hs⟩
          rw [hks] at hks2
          have : ks = ks2 := by simpa using hks2
          subst this
          obtain ⟨s2, hs2, hc2⟩ := h1 k hk
          rw [hc] at hc2
          have : s = s2 := Except.ok.inj hc2
          subst this
          have hm : s ∈ kp := by
            rw [← hkp, List.mem_filter]
            exact ⟨hs2, by simpa using hs⟩
          exact List.ne_nil_of_mem hm
  · rename_i hno
    have hkp : [] = kp := Except.ok.inj h
    subst hkp
    refine ⟨?_, ?_, ?_⟩
    · intro ks hks
      exact absurd hks (hno ks)
    · intro s hs
      simp at hs
    · constructor
      · intro hne; exact absurd rfl hne
      · rintro ⟨ks, hks, _⟩
        exact absurd hks (hno ks)

theorem keyPointsOf_error (E : Engine) (data : JsVal) (e : JsError)
    (h : keyPointsOf E data = .error e) :
    e = ⟨E.notPrimitive⟩ ∧
    ∃ ks, getMember (some data) (lit "keyPoints") = some (.arr ks) ∧
      ∃ k ∈ ks, ¬ Converts E (some k) := by
  unfold keyPointsOf at h
  split at h
  · rename_i ks hks
    cases hr : trimAll E ks with
    | error e2 =>
      rw [hr] at h
      have he : e2 = e := Except.error.inj h
      subst he
      obtain ⟨h1, k, hk, hc⟩ := trimAll_error_mem E ks e2 hr
      exact ⟨h1, ks, hks, k, hk, hc⟩
    | ok ss => rw [hr] at h; simp at h
  · simp at h

theorem not_converts_of_error {E : Engine} {v : Option JsVal} {e : JsError}
    (h : safeTrimVal E v = .error e) : ¬ Converts E v := by
  rintro ⟨s, hs⟩
  rw [h] at hs
  exact absurd hs (by simp)

theorem nonEmpty_iff_of_ok {E : Engine} {v : Option JsVal} {s : JsString}
    (h : safeTrimVal E v = .ok s) : NonEmptyAfterTrim E v ↔ s ≠ [] := by
  constructor
  · rintro ⟨s2, hs2, hne⟩
    rw [h] at hs2
    have : s = s2 := Except.ok.inj hs2
    subst this; exact hne
  · intro hne; exact ⟨s, h, hne⟩

theorem projectNote_of_fields (E : Engine) (data : JsVal) (s e c : JsString)
    (kp : List JsString)
    (hs : safeTrimVal E (getMember (some data) (lit "summary")) = .ok s)
    (he : safeTrimVal E (getMember (some data) (lit "explanation")) = .ok e)
    (hk : keyPointsOf E data = .ok kp)
    (hc : safeTrimVal E (getMember (some data) (lit "conclusion")) = .ok c) :
    projectNote E data =
      if s = [] ∨ e = [] ∨ c = [] ∨ kp.length = 0 then
        .error ⟨lit "Model JSON was missing required fields."⟩
      else .ok { summary := s, explanation := e, keyPoints := kp, conclusion := c } := by
  simp only [projectNote, hs, he, hk, hc]

theorem projectNote_cases (E : Engine) (data : JsVal) :
    (¬ FieldsConvert E data ∧ projectNote E data = .error ⟨E.notPrimitive⟩) ∨
    (∃ s e c kp,
      safeTrimVal E (getMember (some data) (lit "summary")) = .ok s ∧
      safeTrimVal E (getMember (some data) (lit "explanation")) = .ok e ∧
      keyPointsOf E data = .ok kp ∧
      safeTrimVal E (getMember (some data) (lit "conclusion")) = .ok c) := by
  cases hs : safeTrimVal E (getMember (some data) (lit "summary")) with
  | error err =>
    left
    refine ⟨fun h => not_converts_of_error hs h.1, ?_⟩
    simp only [projectNote, hs, safeTrimVal_error E _ _ hs]
  | ok s =>
    cases he : safeTrimVal E (getMember (some data) (lit "explanation")) with
    | error err =>
      left
      refine ⟨fun h => not_converts_of_error he h.2.1, ?_⟩
      simp only [projectNote, hs, he, safeTrimVal_error E _ _ he]
    | ok e =>
      cases hk : keyPointsOf E data with
      | error err =>
        left
        obtain ⟨h1, ks, hks, k, hkm, hnc⟩ := keyPointsOf_error E data err hk
        refine ⟨fun h => hnc (h.2.2.2 ks hks k hkm), ?_⟩
        simp only [projectNote, hs, he, hk, h1]
      | ok kp =>
        cases hc : safeTrimVal E (getMember (some data) (lit "conclusion")) with
        | error err =>
          left
          refine ⟨fun h => not_converts_of_error hc h.2.2.1, ?_⟩
          simp only [projectNote, hs, he, hk, hc, safeTrimVal_error E _ _ hc]
        | ok c => right; exact ⟨s, e, c, kp, rfl, rfl, rfl, rfl⟩

theorem projection_spec (E : Engine) (data : JsVal) :
    ((∃ n, projectNote E data = .ok n) ↔ FieldsConvert E data ∧ FieldsValid E data) ∧
    (∀ n, projectNote E data = .ok n →
      n.summary ≠ [] ∧ n.explanation ≠ [] ∧ n.conclusion ≠ [] ∧ n.keyPoints ≠ [] ∧
      (∀ k ∈ n.keyPoints, k ≠ [] ∧ Trimmed k) ∧
      safeTrimVal E (getMember (some data) (lit "summary")) = .ok n.summary ∧
      safeTrimVal E (getMember (some data) (lit "explanation")) = .ok n.explanation ∧
      keyPointsOf E data = .ok n.keyPoints ∧
      safeTrimVal E (getMember (some data) (lit "conclusion")) = .ok n.conclusion) ∧
    (FieldsConvert E data → ¬ FieldsValid E data →
      projectNote E data = .error ⟨lit "Model JSON was missing required fields."⟩) ∧
    (¬ FieldsConvert E data → projectNote E data = .error ⟨E.notPrimitive⟩) := by
  rcases projectNote_cases E data with ⟨hnc, herr⟩ | ⟨s, e, c, kp, hs, he, hk, hc⟩
  · refine ⟨⟨?_, fun h => absurd h.1 hnc⟩, ?_, fun h => absurd h hnc, fun _ => herr⟩
    · rintro ⟨n, hn⟩
      rw [herr] at hn
      exact absurd hn (by simp)
    · intro n hn
      rw [herr] at hn
      exact absurd hn (by simp)
  · have hp := projectNote_of_fields E data s e c kp hs he hk hc
    obtain ⟨k1, k2, k3⟩ := keyPointsOf_ok E data kp hk
    have hconv : FieldsConvert E data := ⟨⟨s, hs⟩, ⟨e, he⟩, ⟨c, hc⟩, k1⟩
    have hvalid : FieldsValid E data ↔ ¬ (s = [] ∨ e = [] ∨ c = [] ∨ kp.length = 0) := by
      unfold FieldsValid
      rw [nonEmpty_iff_of_ok hs, nonEmpty_iff_of_ok he, nonEmpty_iff_of_ok hc, ← k3]
      simp only [List.length_eq_zero]
      tauto
    by_cases hcond : s = [] ∨ e = [] ∨ c = [] ∨ kp.length = 0
    · rw [if_pos hcond] at hp
      refine ⟨⟨?_, fun h => absurd (hvalid.mp h.2) (not_not.mpr hcond)⟩, ?_, fun _ _ => hp,
        fun h => absurd hconv h⟩
      · rintro ⟨n, hn⟩
        rw [hp] at hn
        exact absurd hn (by simp)
      · intro n hn
        rw [hp] at hn
        exact absurd hn (by simp)
    · rw [if_neg hcond] at hp
      refine ⟨⟨fun _ => ⟨hconv, hvalid.mpr hcond⟩, fun _ => ⟨_, hp⟩⟩, ?_,
        fun _ h => absurd (hvalid.mpr hcond) h, fun h => absurd hconv h⟩
      intro n hn
      rw [hp] at hn
      have hn2 := Except.ok.inj hn
      subst hn2
      simp only [not_or, List.length_eq_zero] at hcond
      exact ⟨hcond.1, hcond.2.1, hcond.2.2.1, hcond.2.2.2, k2, hs, he, hk, hc⟩

/-- C3, as the code has it: the projection returns a note if and only if every
string conversion it makes succeeds, `summary`, `explanation` and `conclusion`
are non-empty after trimming and `keyPoints` is an array with an element that
is non-empty after trimming; the returned fields are then the trimmed ones,
all non-empty, and every returned key point is a non-empty trimmed string.
When the conversions succeed and that validity fails it throws `Model JSON
was missing required fields.`; when a conversion throws (an object with an
own `toString` property) it throws the engine's `TypeError`.  In every
failing case the submit handler shows the offline fallback, and its status
carries the failure's message (that of the `URIError` when the credential
does not encode into the URL, so that nothing was fetched). -/
theorem C3_projection_validates (E : Engine) (data : JsVal) :
    ((∃ n, projectNote E data = .ok n) ↔ FieldsConvert E data ∧ FieldsValid E data) ∧
    (∀ n, projectNote E data = .ok n →
      n.summary ≠ [] ∧ n.explanation ≠ [] ∧ n.conclusion ≠ [] ∧ n.keyPoints ≠ [] ∧
      (∀ k ∈ n.keyPoints, k ≠ [] ∧ Trimmed k) ∧
      safeTrimVal E (getMember (some data) (lit "summary")) = .ok n.summary ∧
      safeTrimVal E (getMember (some data) (lit "explanation")) = .ok n.explanation ∧
      keyPointsOf E data = .ok n.keyPoints ∧
      safeTrimVal E (getMember (some data) (lit "conclusion")) = .ok n.conclusion) ∧
    (FieldsConvert E data → ¬ FieldsValid E data →
      projectNote E data = .error ⟨lit "Model JSON was missing required fields."⟩) ∧
    (¬ FieldsConvert E data → projectNote E data = .error ⟨E.notPrimitive⟩) ∧
    (∀ (fetch : Request → FetchResult) (form : Form) (page : Page) (status : Nat)
        (text candidate jsonText : JsString) (err : JsError),
      safeTrim form.topic ≠ [] → safeTrim form.apiKey ≠ [] →
      fetch (requestOf (safeTrim form.topic) (levelOf form) (safeTrim form.apiKey))
        = .response status (.ok text) →
      statusOk status = true →
      candidateText E ((JSON_parse text).getD .null) text = .ok candidate →
      extractJsonObject candidate = some jsonText → JSON_parse jsonText = some data →
      projectNote E data = .error err →
      ∃ p, submit E fetch form page = .ok p ∧
        p.output = some (buildOfflineDemo (safeTrim form.topic) (levelOf form)) ∧
        p.status = failureStatus
          (if isWellFormed (safeTrim form.apiKey) = true then err else ⟨E.malformedURI⟩)) := by
  obtain ⟨h1, h2, h3, h4⟩ := projection_spec E data
  refine ⟨h1, h2, h3, h4, ?_⟩
  intro fetch form page status text candidate jsonText err ht hk hf hs hc hx hp he
  cases hw : isWellFormed (safeTrim form.apiKey) with
  | true =>
    have hg : (generateWithGemini E fetch (safeTrim form.topic) (levelOf form)
        (safeTrim form.apiKey)).1 = .error err := by
      rw [generate_ok_status E fetch _ _ _ status text hw hf hs,
        readResponse_parsed E text candidate jsonText hc hx, hp]
      exact he
    exact ⟨_, submit_live_error E fetch form page ht hk err hg, rfl, by simp⟩
  | false =>
    have hg : (generateWithGemini E fetch (safeTrim form.topic) (levelOf form)
        (safeTrim form.apiKey)).1 = .error ⟨E.malformedURI⟩ := by
      rw [generate_malformed E fetch _ _ _ hw]
    exact ⟨_, submit_live_error E fetch form page ht hk _ hg, rfl, by simp⟩

/-- C3 at a 200 response whose model JSON lacks `conclusion`: the handler
renders the offline fallback and reports the missing fields. -/
theorem C3_projection_validates_witness :
    ∃ p, submit v8 (fun _ => .response 200 (.ok bodyWithoutConclusion))
        ⟨some (lit "Photosynthesis"), some (lit "school"), some (lit "k"), some false⟩ freshPage
          = .ok p ∧
      p.output = some (buildOfflineDemo (lit "Photosynthesis") (lit "school")) ∧
      p.status = lit "Model JSON was missing required fields. Showing offline sample instead." := by
  have h := (C3_projection_validates v8 dataWithoutConclusion).2.2.2.2
    (fun _ => .response 200 (.ok bodyWithoutConclusion))
    ⟨some (lit "Photosynthesis"), some (lit "school"), some (lit "k"), some false⟩ freshPage 200
    bodyWithoutConclusion
    (lit "\x7b\"summary\":\"S\",\"explanation\":\"E\",\"keyPoints\":[\"a\"]\x7d")
    (lit "\x7b\"summary\":\"S\",\"explanation\":\"E\",\"keyPoints\":[\"a\"]\x7d")
    ⟨lit "Model JSON was missing required fields."⟩
    (by decide) (by decide) rfl (by decide) (by decide) (by decide) rfl (by decide)
  obtain ⟨p, hp, ho, hs⟩ := h
  exact ⟨p, hp, ho, hs.trans (by decide)⟩

/-- C3 as stated fails at the model JSON
`{"summary":"S","explanation":"E","keyPoints":["a",{"toString":0}],"conclusion":"C"}`:
its three strings are non-empty after trimming and `keyPoints` is an array
whose element `"a"` is non-empty after trimming, yet the projection returns no
note, and what it throws is the `TypeError` of `String(...)` on the second
key point, not `Model JSON was missing required fields.`. -/
theorem C3_own_toString_counterexample :
    JSON_parse (lit "\x7b\"summary\":\"S\",\"explanation\":\"E\",\"keyPoints\":[\"a\",\x7b\"toString\":0\x7d],\"conclusion\":\"C\"\x7d")
      = some dataWithToString ∧
    FieldsValid v8 dataWithToString ∧
    projectNote v8 dataWithToString = .error ⟨lit "Cannot convert object to primitive value"⟩ := by
  refine ⟨rfl, ⟨⟨lit "S", by decide, by decide⟩, ⟨lit "E", by decide, by decide⟩,
    ⟨lit "C", by decide, by decide⟩,
    ⟨_, rfl, .str (lit "a"), by simp, ⟨lit "a", by decide, by decide⟩⟩⟩, by decide⟩



/-! ## The candidate text and the live path -/

theorem joinItems_empty_sep (E : Engine) :
    ∀ (xs : List JsVal) (ts : List JsString),
      List.Forall₂ (fun x t => elemText E x = .ok t) xs ts →
      joinItems E [] xs = .ok ts.flatten
  | [], ts, h => by
    cases h
    simp [joinItems]
  | x :: rest, ts, h => by
    cases h with
    | cons hx hrest =>
      rename_i t ts2
      have ih := joinItems_empty_sep E rest ts2 hrest
      rw [joinItems_cons, hx]
      cases rest with
      | nil =>
        cases hrest
        simp
      | cons y ys =>
        simp only
        rw [ih]
        simp

theorem partText_of_string (E : Engine) (p : JsVal) (h : HasStringText p) :
    partText E p = .ok (textOf p) := by
  rcases h with h | ⟨s, h⟩
  · simp [partText, textOf, h, orEmpty, elemText, jsToString]
  · by_cases hs : s = []
    · subst hs
      simp [partText, textOf, h, orEmpty, truthy, elemText, jsToString]
    · simp [partText, textOf, h, orEmpty, truthy, hs, elemText, jsToString]

theorem candidateText_of_parts (E : Engine) (payload : JsVal) (text : JsString)
    (ps : List JsVal) (ts : List JsString) (hp : partsOf payload = some (.arr ps))
    (ht : List.Forall₂ (fun p t => partText E p = .ok t) ps ts) :
    candidateText E payload text = .ok (if ts.flatten = [] then text else ts.flatten) := by
  have hj : joinItems E [] (ps.map fun p => orEmpty E (getMember (some p) (lit "text")))
      = .ok ts.flatten := by
    apply joinItems_empty_sep
    rw [List.forall₂_map_left_iff]
    exact ht
  simp only [candidateText, hp, hj]

theorem forall₂_textOf (E : Engine) :
    ∀ ps : List JsVal, (∀ p ∈ ps, HasStringText p) →
      List.Forall₂ (fun p t => partText E p = .ok t) ps (ps.map textOf)
  | [], _ => List.Forall₂.nil
  | p :: ps, h =>
    List.Forall₂.cons (partText_of_string E p (h p (List.mem_cons_self _ _)))
      (forall₂_textOf E ps fun q hq => h q (List.mem_cons_of_mem _ hq))

theorem elemText_dichotomy (E : Engine) (f : JsVal → JsVal) :
    ∀ ps : List JsVal,
      (∃ ts, List.Forall₂ (fun p t => elemText E (f p) = .ok t) ps ts) ∨
      (∃ p ∈ ps, ∃ e, elemText E (f p) = .error e)
  | [] => Or.inl ⟨[], List.Forall₂.nil⟩
  | p :: ps => by
    cases hp : elemText E (f p) with
    | error e => exact Or.inr ⟨p, List.mem_cons_self _ _, e, hp⟩
    | ok t =>
      rcases elemText_dichotomy E f ps with ⟨ts, hts⟩ | ⟨q, hq, e, he⟩
      · exact Or.inl ⟨t :: ts, List.Forall₂.cons hp hts⟩
      · exact Or.inr ⟨q, List.mem_cons_of_mem _ hq, e, he⟩

theorem joinItems_fails (E : Engine) (sep : JsString) :
    ∀ xs : List JsVal, (∃ x ∈ xs, ∃ e, elemText E x = .error e) →
      joinItems E sep xs = .error ⟨E.notPrimitive⟩
  | [], h => by
    obtain ⟨x, hx, _⟩ := h
    simp at hx
  | x :: rest, h => by
    rw [joinItems_cons]
    cases hx : elemText E x with
    | error e =>
      have := joinItems_error E sep [x] e (by rw [joinItems_cons, hx])
      rw [this]
    | ok t =>
      have hrest : ∃ y ∈ rest, ∃ e, elemText E y = .error e := by
        obtain ⟨y, hy, e, he⟩ := h
        rcases List.mem_cons.mp hy with h1 | h1
        · subst h1
          rw [hx] at he
          exact absurd he (by simp)
        · exact ⟨y, h1, e, he⟩
      have ih := joinItems_fails E sep rest hrest
      cases rest with
      | nil =>
        obtain ⟨y, hy, _⟩ := hrest
        simp at hy
      | cons y ys =>
        simp only
        rw [ih]

theorem candidateText_of_failing (E : Engine) (payload : JsVal) (text : JsString)
    (ps : List JsVal) (hp : partsOf payload = some (.arr ps))
    (hf : ∃ p ∈ ps, ∃ e, partText E p = .error e) :
    candidateText E payload text = .error ⟨E.notPrimitive⟩ := by
  have hj : joinItems E [] (ps.map fun p => orEmpty E (getMember (some p) (lit "text")))
      = .error ⟨E.notPrimitive⟩ := by
    apply joinItems_fails
    obtain ⟨p, hpm, e, he⟩ := hf
    exact ⟨_, List.mem_map_of_mem _ hpm, e, he⟩
  simp only [candidateText, hp, hj]

/-- C8, as the code has it: for an OK response whose body parses to an
envelope with an array at `candidates[0].content.parts`, either the text of
every part converts to a string, and then the candidate text is the in-order
concatenation of those texts when that concatenation is not empty and the
whole raw body when it is empty, or the conversion of some text throws and
the candidate text is that `TypeError`; a `text` that is a string contributes
itself and a missing one nothing.  The candidate text is the raw body also
when the path is absent or `null` or the body does not parse, and a `parts`
that is neither `null` nor an array has no `map` to call; a candidate text
that throws fails the live attempt with what it throws.  When the
credential encodes into the URL and the JSON object isolated from the
candidate text projects to a note, `generateWithGemini` returns exactly that
note and the status contains `live`. -/
theorem C8_live_path (E : Engine) (text : JsString) :
    (∀ payload ps, JSON_parse text = some payload → partsOf payload = some (.arr ps) →
      (∃ ts, List.Forall₂ (fun p t => partText E p = .ok t) ps ts ∧
        candidateText E payload text = .ok (if ts.flatten = [] then text else ts.flatten)) ∨
      ((∃ p ∈ ps, ∃ e, partText E p = .error e) ∧
        candidateText E payload text = .error ⟨E.notPrimitive⟩)) ∧
    (∀ p, HasStringText p → partText E p = .ok (textOf p)) ∧
    (∀ payload ps, JSON_parse text = some payload → partsOf payload = some (.arr ps) →
      (∀ p ∈ ps, HasStringText p) →
      candidateText E payload text =
        .ok (if (ps.map textOf).flatten = [] then text else (ps.map textOf).flatten)) ∧
    (∀ payload, JSON_parse text = some payload →
      partsOf payload = none ∨ partsOf payload = some .null →
      candidateText E payload text = .ok text) ∧
    (∀ payload v, JSON_parse text = some payload → partsOf payload = some v →
      v ≠ .null → (∀ ps, v ≠ .arr ps) →
      candidateText E payload text = .error ⟨E.notCallable⟩) ∧
    (JSON_parse text = none →
      candidateText E ((JSON_parse text).getD .null) text = .ok text) ∧
    (∀ (fetch : Request → FetchResult) (topic level apiKey : JsString) (status : Nat)
        (err : JsError),
      isWellFormed apiKey = true →
      fetch (requestOf topic level apiKey) = .response status (.ok text) →
      statusOk status = true →
      candidateText E ((JSON_parse text).getD .null) text = .error err →
      (generateWithGemini E fetch topic level apiKey).1 = .error err) ∧
    (∀ (fetch : Request → FetchResult) (form : Form) (page : Page) (status : Nat)
        (candidate jsonText : JsString) (data : JsVal) (n : Note),
      safeTrim form.topic ≠ [] → safeTrim form.apiKey ≠ [] →
      isWellFormed (safeTrim form.apiKey) = true →
      fetch (requestOf (safeTrim form.topic) (levelOf form) (safeTrim form.apiKey))
        = .response status (.ok text) →
      statusOk status = true →
      candidateText E ((JSON_parse text).getD .null) text = .ok candidate →
      extractJsonObject candidate = some jsonText → JSON_parse jsonText = some data →
      projectNote E data = .ok n →
      (generateWithGemini E fetch (safeTrim form.topic) (levelOf form)
        (safeTrim form.apiKey)).1 = .ok n ∧
      ∃ p, submit E fetch form page = .ok p ∧ p.output = some n ∧
        lit "live" <:+: p.status) := by
  refine ⟨?_, ?_, ?_, ?_, ?_, ?_, ?_, ?_⟩
  · intro payload ps _ hp
    rcases elemText_dichotomy E (fun p => orEmpty E (getMember (some p) (lit "text"))) ps with
      ⟨ts, hts⟩ | hf
    · exact Or.inl ⟨ts, hts, candidateText_of_parts E payload text ps ts hp hts⟩
    · exact Or.inr ⟨hf, candidateText_of_failing E payload text ps hp hf⟩
  · exact fun p hp => partText_of_string E p hp
  · intro payload ps _ hp hs
    exact candidateText_of_parts E payload text ps _ hp (forall₂_textOf E ps hs)
  · intro payload _ hp
    rcases hp with hp | hp <;> simp [candidateText, hp]
  · intro payload v _ hp hnull harr
    cases v with
    | null => exact absurd rfl hnull
    | arr ps => exact absurd rfl (harr ps)
    | bool b => simp [candidateText, hp]
    | num l => simp [candidateText, hp]
    | str s => simp [candidateText, hp]
    | obj ms => simp [candidateText, hp]
  · intro hn
    rw [hn]
    rfl
  · intro fetch topic level apiKey status err hw hf hs hc
    rw [generate_ok_status E fetch _ _ _ status text hw hf hs,
      readResponse_candidate_error E text err hc]
  · intro fetch form page status candidate jsonText data n ht hk hw hf hs hc hx hp hn
    have hg : (generateWithGemini E fetch (safeTrim form.topic) (levelOf form)
        (safeTrim form.apiKey)).1 = .ok n := by
      rw [generate_ok_status E fetch _ _ _ status text hw hf hs,
        readResponse_parsed E text candidate jsonText hc hx, hp]
      exact hn
    refine ⟨hg, _, submit_live_ok E fetch form page ht hk n hg, rfl, ?_⟩
    show lit "live" <:+: lit "Done. Generated live notes."
    decide

/-- C8 at the body of the claim: the note is
`{summary:"S", explanation:"E", keyPoints:["a","b"], conclusion:"C"}` and the
status is `Done. Generated live notes.`. -/
theorem C8_live_path_witness :
    (generateWithGemini v8 (fun _ => .response 200 (.ok liveBody))
        (lit "Photosynthesis") (lit "school") (lit "k")).1
      = .ok ⟨lit "S", lit "E", [lit "a", lit "b"], lit "C"⟩ ∧
    ∃ p, submit v8 (fun _ => .response 200 (.ok liveBody))
        ⟨some (lit "Photosynthesis"), some (lit "school"), some (lit "k"), some false⟩ freshPage
          = .ok p ∧
      p.output = some ⟨lit "S", lit "E", [lit "a", lit "b"], lit "C"⟩ ∧
      lit "live" <:+: p.status :=
  (C8_live_path v8 liveBody).2.2.2.2.2.2.2 (fun _ => .response 200 (.ok liveBody))
    ⟨some (lit "Photosynthesis"), some (lit "school"), some (lit "k"), some false⟩ freshPage 200
    (lit "\x7b\"summary\":\"S\",\"explanation\":\"E\",\"keyPoints\":[\"a\",\"b\"],\"conclusion\":\"C\"\x7d")
    (lit "\x7b\"summary\":\"S\",\"explanation\":\"E\",\"keyPoints\":[\"a\",\"b\"],\"conclusion\":\"C\"\x7d")
    (noteToJs ⟨lit "S", lit "E", [lit "a", lit "b"], lit "C"⟩)
    ⟨lit "S", lit "E", [lit "a", lit "b"], lit "C"⟩
    (by decide) (by decide) (by decide) rfl (by decide) (by decide) (by decide) rfl (by decide)

/-- C8 as stated fails at the body
`{"candidates":[{"content":{"parts":[{"text":""}]}}],"summary":"S","explanation":"E","keyPoints":["a"],"conclusion":"C"}`:
the path `candidates[0].content.parts` is present and the concatenation of the
texts of its parts is empty, yet the candidate text is the whole raw body, and
the live attempt returns the note read from the envelope itself. -/
theorem C8_empty_parts_counterexample :
    JSON_parse emptyPartBody = some emptyPartPayload ∧
    partsOf emptyPartPayload = some (.arr [.obj [(lit "text", .str [])]]) ∧
    ([JsVal.obj [(lit "text", .str [])]].map textOf).flatten = [] ∧
    candidateText v8 emptyPartPayload emptyPartBody = .ok emptyPartBody ∧
    emptyPartBody ≠ [] ∧
    (generateWithGemini v8 (fun _ => .response 200 (.ok emptyPartBody))
        (lit "Photosynthesis") (lit "school") (lit "k")).1
      = .ok ⟨lit "S", lit "E", [lit "a"], lit "C"⟩ := by
  refine ⟨rfl, rfl, by decide, by decide, by decide, by decide⟩
/-! ## `JSON.parse` after `JSON.stringify` -/

theorem hexVal_hexDigit : ∀ n, n < 16 → hexVal (hexDigit n) = some n := by
  decide

theorem hex4_unicodeEscape (c : Nat) (hc : c < 65536) :
    hex4 (hexDigit (c / 4096 % 16)) (hexDigit (c / 256 % 16)) (hexDigit (c / 16 % 16))
      (hexDigit (c % 16)) = some c := by
  unfold hex4
  rw [hexVal_hexDigit _ (Nat.mod_lt _ (by decide)), hexVal_hexDigit _ (Nat.mod_lt _ (by decide)),
    hexVal_hexDigit _ (Nat.mod_lt _ (by decide)), hexVal_hexDigit _ (Nat.mod_lt _ (by decide))]
  simp only [Option.some.injEq]
  omega

theorem parseChars_raw (c : Nat) (t : JsString) (h1 : c ≠ 0x22) (h2 : c ≠ 0x5C)
    (h3 : ¬ c < 0x20) : parseChars (c :: t) = consChar c (parseChars t) := by
  rw [parseChars.eq_def]
  simp only [h1, h2, h3, if_false]
  cases parseChars t <;> rfl

theorem parseChars_unicodeEscape (c : Nat) (t : JsString) (hc : c < 65536) :
    parseChars (unicodeEscape c ++ t) = consChar c (parseChars t) := by
  simp only [unicodeEscape, List.cons_append, List.nil_append]
  rw [parseChars.eq_def]
  simp only [show ¬ ((0x5C : Nat) = 0x22) by decide, if_false, if_true]
  rw [hex4_unicodeEscape c hc]
  cases parseChars t <;> rfl

theorem parseChars_short (e u : Nat) (t : JsString) (he : e ≠ 0x75) (hu : unescape e = some u) :
    parseChars (0x5C :: e :: t) = consChar u (parseChars t) := by
  rw [parseChars.eq_def]
  simp only [show ¬ ((0x5C : Nat) = 0x22) by decide, if_false, if_true, he, hu]
  cases parseChars t <;> rfl

theorem parseChars_escapeUnit (c : Nat) (t : JsString) :
    parseChars (escapeUnit c ++ t) = consChar c (parseChars t) := by
  unfold escapeUnit
  split
  · subst_vars; exact parseChars_short _ _ t (by decide) (by decide)
  split
  · subst_vars; exact parseChars_short _ _ t (by decide) (by decide)
  split
  · subst_vars; exact parseChars_short _ _ t (by decide) (by decide)
  split
  · subst_vars; exact parseChars_short _ _ t (by decide) (by decide)
  split
  · subst_vars; exact parseChars_short _ _ t (by decide) (by decide)
  split
  · subst_vars; exact parseChars_short _ _ t (by decide) (by decide)
  split
  · subst_vars; exact parseChars_short _ _ t (by decide) (by decide)
  split
  · rename_i h
    apply parseChars_unicodeEscape
    rcases h with h | h | h
    · omega
    · simp [isHighSurrogate] at h; omega
    · simp [isLowSurrogate] at h; omega
  · rename_i h1 h2 h3 h4 h5 h6 h7 h8
    simp only [not_or] at h8
    exact parseChars_raw c t (by omega) (by omega) h8.1

theorem parseChars_quoteUnits : ∀ (s t : JsString),
    parseChars (quoteUnits s ++ 0x22 :: t) = some (s, t)
  | [], t => by
    simp only [quoteUnits, List.nil_append]
    rw [parseChars.eq_def]
    simp
  | [c], t => by
    simp only [quoteUnits]
    rw [parseChars_escapeUnit, parseChars.eq_def]
    simp [consChar]
  | c :: d :: rest, t => by
    have ih1 := parseChars_quoteUnits (d :: rest) t
    have ih2 := parseChars_quoteUnits rest t
    simp only [quoteUnits]
    split
    · rename_i h
      simp only [isHighSurrogate, isLowSurrogate, Bool.and_eq_true, decide_eq_true_eq] at h
      simp only [List.cons_append]
      rw [parseChars_raw c _ (by omega) (by omega) (by omega),
        parseChars_raw d _ (by omega) (by omega) (by omega), ih2]
      rfl
    · rw [List.append_assoc, parseChars_escapeUnit, ih1]
      rfl

theorem skipWs_cons (c : Nat) (t : JsString) (h : isJsonWs c = false) :
    skipWs (c :: t) = c :: t := by
  simp [skipWs, List.dropWhile, h]

theorem parseValue_string (f : Nat) (s r : JsString) :
    parseValue (f + 1) (0x22 :: (quoteUnits s ++ 0x22 :: r)) = some (.str s, r) := by
  rw [parseValue]
  simp [parseChars_quoteUnits]

theorem quoteJSONString_append (s r : JsString) :
    quoteJSONString s ++ r = 0x22 :: (quoteUnits s ++ 0x22 :: r) := by
  simp [quoteJSONString]

theorem parseElements_strings : ∀ (ks : List JsString) (k0 : JsString) (f : Nat) (r : JsString),
    parseElements (f + ks.length + 2) (serializeStrings (k0 :: ks) ++ 0x5D :: r)
      = some ((k0 :: ks).map .str, r)
  | [], k0, f, r => by
    simp only [serializeStrings, List.length_nil, Nat.add_zero, quoteJSONString_append]
    rw [parseElements, skipWs_cons _ _ (by decide), parseValue_string]
    simp only
    rw [skipWs_cons _ _ (by decide)]
    simp
  | k1 :: ks, k0, f, r => by
    have ih := parseElements_strings ks k1 f r
    simp only [serializeStrings, List.length_cons, List.append_assoc, quoteJSONString_append,
      List.cons_append, List.nil_append]
    simp only [serializeStrings, List.append_assoc, quoteJSONString_append,
      List.cons_append, List.nil_append] at ih
    have e : f + (ks.length + 1) + 2 = (f + ks.length + 2) + 1 := by omega
    rw [e, parseElements]
    rw [skipWs_cons _ _ (by decide)]
    rw [show f + ks.length + 2 = (f + ks.length + 1) + 1 from rfl, parseValue_string]
    simp only
    rw [skipWs_cons _ _ (by decide)]
    simp only [if_true]
    rw [show f + ks.length + 1 + 1 = f + ks.length + 2 from rfl, ih]
    rfl

theorem parseMembers_more (f : Nat) (k : JsString) (c : Nat) (t rest : JsString) (v : JsVal)
    (hv : parseValue f (c :: t) = some (v, 0x2C :: rest)) (hc : isJsonWs c = false) :
    parseMembers (f + 1) (0x22 :: (quoteUnits k ++ 0x22 :: 0x3A :: c :: t)) =
      match parseMembers f rest with
      | some (ms, r3) => some ((k, v) :: ms, r3)
      | none => none := by
  rw [parseMembers, skipWs_cons _ _ (by decide)]
  simp only [if_true]
  rw [parseChars_quoteUnits]
  simp only
  rw [skipWs_cons _ _ (by decide)]
  simp only [if_true]
  rw [skipWs_cons _ _ hc, hv]
  simp only
  rw [skipWs_cons _ _ (by decide)]
  simp only [if_true]

theorem parseMembers_last (f : Nat) (k : JsString) (c : Nat) (t rest : JsString) (v : JsVal)
    (hv : parseValue f (c :: t) = some (v, 0x7D :: rest)) (hc : isJsonWs c = false) :
    parseMembers (f + 1) (0x22 :: (quoteUnits k ++ 0x22 :: 0x3A :: c :: t)) =
      some ([(k, v)], rest) := by
  rw [parseMembers, skipWs_cons _ _ (by decide)]
  simp only [if_true]
  rw [parseChars_quoteUnits]
  simp only
  rw [skipWs_cons _ _ (by decide)]
  simp only [if_true]
  rw [skipWs_cons _ _ hc, hv]
  simp only
  rw [skipWs_cons _ _ (by decide)]
  simp

theorem parseValue_strings (ks : List JsString) (k0 : JsString) (f : Nat) (r : JsString) :
    parseValue (f + ks.length + 3) (0x5B :: (serializeStrings (k0 :: ks) ++ 0x5D :: r))
      = some (.arr ((k0 :: ks).map .str), r) := by
  rw [show f + ks.length + 3 = (f + ks.length + 2) + 1 from rfl, parseValue]
  simp only [show ¬ ((0x5B : Nat) = 0x22) by decide, if_false, if_true]
  have hq : ∃ t, serializeStrings (k0 :: ks) ++ 0x5D :: r = 0x22 :: t := by
    cases ks with
    | nil => exact ⟨_, quoteJSONString_append k0 _⟩
    | cons k1 ks =>
      refine ⟨quoteUnits k0 ++ 0x22 :: ([0x2C] ++ serializeStrings (k1 :: ks) ++ 0x5D :: r), ?_⟩
      simp [serializeStrings, quoteJSONString]
  obtain ⟨t, ht⟩ := hq
  have := parseElements_strings ks k0 f r
  rw [ht] at this ⊢
  rw [skipWs_cons _ _ (by decide)]
  simp only [show ¬ ((0x22 : Nat) = 0x5D) by decide, if_false]
  rw [this]

theorem serializeNote_eq (n : Note) :
    serializeNote n =
      0x7B :: 0x22 :: (quoteUnits (lit "summary") ++ 0x22 :: 0x3A ::
        0x22 :: (quoteUnits n.summary ++ 0x22 :: 0x2C ::
        0x22 :: (quoteUnits (lit "explanation") ++ 0x22 :: 0x3A ::
        0x22 :: (quoteUnits n.explanation ++ 0x22 :: 0x2C ::
        0x22 :: (quoteUnits (lit "keyPoints") ++ 0x22 :: 0x3A ::
        0x5B :: (serializeStrings n.keyPoints ++ 0x5D :: 0x2C ::
        0x22 :: (quoteUnits (lit "conclusion") ++ 0x22 :: 0x3A ::
        0x22 :: (quoteUnits n.conclusion ++ [0x22, 0x7D])))))))) := by
  have h1 : lit "\x7b\"summary\":" = 0x7B :: 0x22 :: (quoteUnits (lit "summary") ++ [0x22, 0x3A]) := by
    decide
  have h2 : lit ",\"explanation\":" = 0x2C :: 0x22 :: (quoteUnits (lit "explanation") ++ [0x22, 0x3A]) := by
    decide
  have h3 : lit ",\"keyPoints\":[" = 0x2C :: 0x22 :: (quoteUnits (lit "keyPoints") ++ [0x22, 0x3A, 0x5B]) := by
    decide
  have h4 : lit "],\"conclusion\":" = 0x5D :: 0x2C :: 0x22 :: (quoteUnits (lit "conclusion") ++ [0x22, 0x3A]) := by
    decide
  have h5 : lit "\x7d" = [0x7D] := by decide
  unfold serializeNote
  rw [h1, h2, h3, h4, h5]
  simp [quoteJSONString, List.append_assoc]

theorem serializeStrings_length : ∀ ks : List JsString, ks.length ≤ (serializeStrings ks).length
  | [] => by simp [serializeStrings]
  | [k] => by simp [serializeStrings, quoteJSONString]
  | k :: k2 :: ks => by
    have ih := serializeStrings_length (k2 :: ks)
    simp only [serializeStrings, List.length_append, List.length_cons, List.length_nil,
      quoteJSONString] at ih ⊢
    omega

theorem JSON_parse_serializeNote (n : Note) (hk : n.keyPoints ≠ []) :
    JSON_parse (serializeNote n) = some (noteToJs n) := by
  obtain ⟨s, e, kp, c⟩ := n
  cases kp with
  | nil => exact absurd rfl hk
  | cons k0 ks =>
    have hlen : ∃ f, (serializeNote ⟨s, e, k0 :: ks, c⟩).length + 1 = f + ks.length + 7 := by
      have h := serializeStrings_length (k0 :: ks)
      refine ⟨(serializeNote ⟨s, e, k0 :: ks, c⟩).length + 1 - (ks.length + 7), ?_⟩
      rw [serializeNote_eq]
      simp only [List.length_append, List.length_cons, List.length_nil] at h ⊢
      omega
    obtain ⟨f, hf⟩ := hlen
    unfold JSON_parse
    rw [hf, serializeNote_eq]
    rw [skipWs_cons _ _ (by decide)]
    have hc := parseValue_string (f + ks.length + 1) c [0x7D]
    have m4 := parseMembers_last (f + ks.length + 2) (lit "conclusion") _ _ _ _ hc (by decide)
    have hkp := parseValue_strings ks k0 f
      (0x2C :: 0x22 :: (quoteUnits (lit "conclusion") ++ 0x22 :: 0x3A ::
        0x22 :: (quoteUnits c ++ [0x22, 0x7D])))
    have m3 := parseMembers_more (f + ks.length + 3) (lit "keyPoints") _ _ _ _ hkp (by decide)
    rw [show f + ks.length + 3 = (f + ks.length + 2) + 1 from rfl, m4] at m3
    have he := parseValue_string (f + ks.length + 3) e
      (0x2C :: 0x22 :: (quoteUnits (lit "keyPoints") ++ 0x22 :: 0x3A ::
        0x5B :: (serializeStrings (k0 :: ks) ++ 0x5D :: 0x2C ::
        0x22 :: (quoteUnits (lit "conclusion") ++ 0x22 :: 0x3A ::
        0x22 :: (quoteUnits c ++ [0x22, 0x7D])))))
    have m2 := parseMembers_more (f + ks.length + 3 + 1) (lit "explanation") _ _ _ _ he
      (by decide)
    rw [m3] at m2
    have hs := parseValue_string (f + ks.length + 3 + 1) s
      (0x2C :: 0x22 :: (quoteUnits (lit "explanation") ++ 0x22 :: 0x3A ::
        0x22 :: (quoteUnits e ++ 0x22 :: 0x2C ::
        0x22 :: (quoteUnits (lit "keyPoints") ++ 0x22 :: 0x3A ::
        0x5B :: (serializeStrings (k0 :: ks) ++ 0x5D :: 0x2C ::
        0x22 :: (quoteUnits (lit "conclusion") ++ 0x22 :: 0x3A ::
        0x22 :: (quoteUnits c ++ [0x22, 0x7D])))))))
    have m1 := parseMembers_more (f + ks.length + 3 + 1 + 1) (lit "summary") _ _ _ _ hs
      (by decide)
    rw [m2] at m1
    rw [show f + ks.length + 7 = (f + ks.length + 3 + 1 + 1 + 1) + 1 from rfl, parseValue]
    simp only [show ¬ ((0x7B : Nat) = 0x22) by decide, show ¬ ((0x7B : Nat) = 0x5B) by decide,
      if_false, if_true]
    rw [skipWs_cons _ _ (by decide)]
    simp only [show ¬ ((0x22 : Nat) = 0x7D) by decide, if_false]
    rw [m1]
    simp [skipWs, noteToJs]

theorem extract_serializeNote (n : Note) :
    extractJsonObject (serializeNote n) = some (serializeNote n) := by
  apply extract_of_bracketed
  · rw [serializeNote_eq]; rfl
  · unfold serializeNote
    rw [List.getLast?_append]
    rfl

theorem trimAll_strings (E : Engine) :
    ∀ ks : List JsString, (∀ k ∈ ks, Trimmed k) → trimAll E (ks.map .str) = .ok ks
  | [], _ => rfl
  | k :: ks, h => by
    have hk : trim k = k := h k (List.mem_cons_self _ _)
    have ih := trimAll_strings E ks fun q hq => h q (List.mem_cons_of_mem _ hq)
    simp only [List.map_cons, trimAll, safeTrimVal_str, ih, hk]

theorem getMember_noteToJs (n : Note) :
    getMember (some (noteToJs n)) (lit "summary") = some (.str n.summary) ∧
    getMember (some (noteToJs n)) (lit "explanation") = some (.str n.explanation) ∧
    getMember (some (noteToJs n)) (lit "keyPoints") = some (.arr (n.keyPoints.map .str)) ∧
    getMember (some (noteToJs n)) (lit "conclusion") = some (.str n.conclusion) ∧
    getMember (some (noteToJs n)) (lit "candidates") = none :=
  ⟨rfl, rfl, rfl, rfl, rfl⟩

theorem projectNote_noteToJs (E : Engine) (n : Note)
    (hs : Trimmed n.summary) (hs0 : n.summary ≠ [])
    (he : Trimmed n.explanation) (he0 : n.explanation ≠ [])
    (hc : Trimmed n.conclusion) (hc0 : n.conclusion ≠ [])
    (hk0 : n.keyPoints ≠ []) (hk : ∀ k ∈ n.keyPoints, Trimmed k ∧ k ≠ []) :
    projectNote E (noteToJs n) = .ok n := by
  obtain ⟨g1, g2, g3, g4, _⟩ := getMember_noteToJs n
  have h1 : safeTrimVal E (getMember (some (noteToJs n)) (lit "summary")) = .ok n.summary := by
    rw [g1, safeTrimVal_str, show trim n.summary = n.summary from hs]
  have h2 : safeTrimVal E (getMember (some (noteToJs n)) (lit "explanation"))
      = .ok n.explanation := by
    rw [g2, safeTrimVal_str, show trim n.explanation = n.explanation from he]
  have h4 : safeTrimVal E (getMember (some (noteToJs n)) (lit "conclusion"))
      = .ok n.conclusion := by
    rw [g4, safeTrimVal_str, show trim n.conclusion = n.conclusion from hc]
  have h3 : keyPointsOf E (noteToJs n) = .ok n.keyPoints := by
    unfold keyPointsOf
    rw [g3]
    simp only [trimAll_strings E n.keyPoints fun k hk2 => (hk k hk2).1]
    congr 1
    rw [List.filter_eq_self]
    intro k hk2
    simpa using (hk k hk2).2
  rw [projectNote_of_fields E (noteToJs n) _ _ _ _ h1 h2 h3 h4, if_neg]
  simp only [not_or, List.length_eq_zero]
  exact ⟨hs0, he0, hc0, hk0⟩

/-- C7: for a note whose summary, explanation and conclusion are trimmed and
non-empty and whose key points are a non-empty sequence of trimmed non-empty
strings, serializing it to JSON, isolating the object with
`extractJsonObject`, parsing it and applying the projection yields the same
note, key points in the same order and number; so does the whole reading of
a response whose body is that JSON. -/
theorem C7_round_trip (E : Engine) (n : Note)
    (hs : Trimmed n.summary) (hs0 : n.summary ≠ [])
    (he : Trimmed n.explanation) (he0 : n.explanation ≠ [])
    (hc : Trimmed n.conclusion) (hc0 : n.conclusion ≠ [])
    (hk0 : n.keyPoints ≠ []) (hk : ∀ k ∈ n.keyPoints, Trimmed k ∧ k ≠ []) :
    (∃ jsonText data, extractJsonObject (serializeNote n) = some jsonText ∧
      JSON_parse jsonText = some data ∧ projectNote E data = .ok n) ∧
    readResponse E (serializeNote n) = .ok n := by
  have h1 := extract_serializeNote n
  have h2 := JSON_parse_serializeNote n hk0
  have h3 := projectNote_noteToJs E n hs hs0 he he0 hc hc0 hk0 hk
  refine ⟨⟨_, _, h1, h2, h3⟩, ?_⟩
  have hcand : candidateText E ((JSON_parse (serializeNote n)).getD .null) (serializeNote n)
      = .ok (serializeNote n) := by
    rw [h2]
    simp only [Option.getD_some, candidateText, partsOf, (getMember_noteToJs n).2.2.2.2]
    rfl
  rw [readResponse_parsed E _ _ _ hcand h1, h2]
  exact h3

/-- C7 at a note with a line break and a quotation mark inside its fields. -/
theorem C7_round_trip_witness :
    (∃ jsonText data,
      extractJsonObject (serializeNote ⟨lit "S \"1\"", lit "E\nF", [lit "a", lit "b"], lit "C"⟩)
        = some jsonText ∧
      JSON_parse jsonText = some data ∧
      projectNote v8 data = .ok ⟨lit "S \"1\"", lit "E\nF", [lit "a", lit "b"], lit "C"⟩) ∧
    serializeNote ⟨lit "S \"1\"", lit "E\nF", [lit "a", lit "b"], lit "C"⟩ =
      lit "\x7b\"summary\":\"S \\\"1\\\"\",\"explanation\":\"E\\nF\",\"keyPoints\":[\"a\",\"b\"],\"conclusion\":\"C\"\x7d" :=
  ⟨(C7_round_trip v8 ⟨lit "S \"1\"", lit "E\nF", [lit "a", lit "b"], lit "C"⟩
      (by decide) (by decide) (by decide) (by decide) (by decide) (by decide) (by decide)
      (by decide)).1, by decide⟩

/-- C10 at the claim's scenario: the topic `Photosynthesis`, the level
`school` and an empty credential give a note whose explanation contains
`simple words and a familiar analogy` and whose summary, explanation and
conclusion each contain `Photosynthesis`. -/
theorem C10_buildOfflineDemo_template_witness :
    ∃ p n, submit v8 (fun _ => .rejected ⟨[]⟩)
        ⟨some (lit "Photosynthesis"), some (lit "school"), some [], some false⟩ freshPage = .ok p ∧
      p.output = some n ∧
      n.explanation = explanationTemplate (lit "Photosynthesis")
        (lit "Use simple words and a familiar analogy.") ∧
      lit "simple words and a familiar analogy" <:+: n.explanation ∧
      lit "Photosynthesis" <:+: n.summary ∧
      lit "Photosynthesis" <:+: n.explanation ∧
      lit "Photosynthesis" <:+: n.conclusion :=
  ⟨_, buildOfflineDemo (lit "Photosynthesis") (lit "school"), rfl, rfl,
    (C10_buildOfflineDemo_template (lit "Photosynthesis") (lit "school")
      (by decide)).2.1.trans (by decide),
    by decide, by decide, by decide, by decide⟩

/-- C5 at three texts: one without braces, one with the braces in the wrong
order, and one with prose around an object. -/
theorem C5_extractJsonObject_spec_witness :
    extractJsonObject (lit "no braces") = none ∧
    extractJsonObject (lit "\x7d then \x7b") = none ∧
    extractJsonObject (lit "Sure: \x7b\"a\":\x7b\"b\":1\x7d\x7d. Done") =
      some (lit "\x7b\"a\":\x7b\"b\":1\x7d\x7d") :=
  ⟨(C5_extractJsonObject_spec (lit "no braces")).1.mpr (Or.inl (by decide)),
   by decide, by decide⟩
end EduSynth
